import Mathlib

/-!
# Bootstrap and lifecycle controller of the v2rayA daemon

A shallow embedding of `service/pre.go`: the schema upgrade of stored servers
and subscriptions, the legacy-JSON search, the network readiness gate, the
asset provisioner, the auto-update scheduler and the lifecycle controller,
followed by the properties established about them.

Effects (log lines, store calls, downloads, goroutine launches) are recorded
as explicit event traces; collaborators that live outside the file are taken
as parameters of an environment record.
-/

namespace V2RayA

/-! ## Data model -/

/-- The legacy fixed-shape server description.  Only `Ps` and `Protocol` are
inspected by `pre.go`; the remaining fields are kept together in `Rest`. -/
structure VmessInfo where
  Ps : String
  Protocol : String
  Rest : String
  deriving DecidableEq, Repr

/-- A v1 server entry. -/
structure ServerRaw where
  VmessInfo : VmessInfo
  Latency : String
  deriving DecidableEq, Repr

/-- A v1 subscription entry. -/
structure SubscriptionRaw where
  Remarks : String
  Address : String
  Status : String
  Servers : List ServerRaw
  Info : String
  deriving DecidableEq, Repr

/-- A v2 server entry: a parsed server object together with a latency. -/
structure ServerRawV2 (Obj : Type) where
  ServerObj : Obj
  Latency : String
  deriving DecidableEq, Repr

/-- A v2 subscription entry. -/
structure SubscriptionRawV2 (Obj : Type) where
  Remarks : String
  Address : String
  Status : String
  Servers : List (ServerRawV2 Obj)
  Info : String
  deriving DecidableEq, Repr

/-- Modelled from the spec: the configuration object kept by the store
(package `db/configure`, not part of the shown sources), reduced to the four
lists the bootstrap code reads and appends to. -/
structure Configure (Obj : Type) where
  Servers : List ServerRaw
  Subscriptions : List SubscriptionRaw
  ServersV2 : List (ServerRawV2 Obj)
  SubscriptionsV2 : List (SubscriptionRawV2 Obj)
  deriving DecidableEq, Repr

/-- Modelled from the spec: the persistent store, holding either no
configuration object or one. -/
structure Store (Obj : Type) where
  configure : Option (Configure Obj)
  deriving DecidableEq, Repr

/-- Collaborators of the migration code that are defined outside `pre.go`. -/
structure MigrateEnv (Obj : Type) where
  /-- The link parser `serverObj.NewFromLink protocol link`; `none` is an error. -/
  NewFromLink : String → String → Option Obj
  /-- The method `VmessInfo.ExportToURL`. -/
  ExportToURL : VmessInfo → String
  /-- Whether `configure.AppendServers` reports an error for a batch. -/
  appendServersFails : List (ServerRawV2 Obj) → Bool
  /-- Whether `configure.AppendSubscriptions` reports an error for a batch. -/
  appendSubscriptionsFails : List (SubscriptionRawV2 Obj) → Bool

/-- Observable effects of the configuration-migration code: log lines by
severity, file-system probes and store calls. -/
inductive MigEvent (Obj : Type) where
  | info (msg : String)
  | warn (msg : String)
  | fatal (msg : String)
  | stat (path : String)
  | readFile (path : String)
  | setConfigure (cfg : Configure Obj)
  | appendServers (batch : List (ServerRawV2 Obj))
  | appendSubscriptions (batch : List (SubscriptionRawV2 Obj))
  deriving DecidableEq, Repr

/-! ## Store accessors (package `db/configure`) -/

/-- Modelled from the spec: `configure.IsConfigureNotExists`. -/
def IsConfigureNotExists {Obj : Type} (s : Store Obj) : Bool :=
  s.configure.isNone

/-- Modelled from the spec: `configure.GetServers`, the v1 server list. -/
def GetServers {Obj : Type} (s : Store Obj) : List ServerRaw :=
  match s.configure with
  | none => []
  | some c => c.Servers

/-- Modelled from the spec: `configure.GetSubscriptions`, the v1 subscription list. -/
def GetSubscriptions {Obj : Type} (s : Store Obj) : List SubscriptionRaw :=
  match s.configure with
  | none => []
  | some c => c.Subscriptions

/-- Modelled from the spec: `configure.GetServersV2`. -/
def GetServersV2 {Obj : Type} (s : Store Obj) : List (ServerRawV2 Obj) :=
  match s.configure with
  | none => []
  | some c => c.ServersV2

/-- Modelled from the spec: `configure.GetSubscriptionsV2`. -/
def GetSubscriptionsV2 {Obj : Type} (s : Store Obj) : List (SubscriptionRawV2 Obj) :=
  match s.configure with
  | none => []
  | some c => c.SubscriptionsV2

/-- Modelled from the spec: a successful `configure.AppendServers`, which
appends the whole batch to the v2 server list. -/
def AppendServers {Obj : Type} (s : Store Obj) (batch : List (ServerRawV2 Obj)) : Store Obj :=
  match s.configure with
  | none => { configure := some { Servers := [], Subscriptions := [], ServersV2 := batch, SubscriptionsV2 := [] } }
  | some c => { configure := some { c with ServersV2 := c.ServersV2 ++ batch } }

/-- Modelled from the spec: a successful `configure.AppendSubscriptions`. -/
def AppendSubscriptions {Obj : Type} (s : Store Obj) (batch : List (SubscriptionRawV2 Obj)) :
    Store Obj :=
  match s.configure with
  | none => { configure := some { Servers := [], Subscriptions := [], ServersV2 := [], SubscriptionsV2 := batch } }
  | some c => { configure := some { c with SubscriptionsV2 := c.SubscriptionsV2 ++ batch } }

/-- Modelled from the spec: a successful `configure.SetConfigure`, which makes
the given object the current configuration. -/
def SetConfigure {Obj : Type} (_s : Store Obj) (cfg : Configure Obj) : Store Obj :=
  { configure := some cfg }

/-! ## Schema upgrade: `migrateServerFormat` -/

/-- The statement `if info.Protocol == "" then info.Protocol = "vmess"`. -/
def defaultProtocol (info : VmessInfo) : VmessInfo :=
  if info.Protocol = "" then { info with Protocol := "vmess" } else info

/-- The first loop of `migrateServerFormat`: walks the v1 servers, growing the
batch `acc` and the log. -/
def migrateServersLoop {Obj : Type} (env : MigrateEnv Obj) :
    List ServerRaw → List (ServerRawV2 Obj) → List (MigEvent Obj) →
      List (ServerRawV2 Obj) × List (MigEvent Obj)
  | [], acc, log => (acc, log)
  | raw :: rest, acc, log =>
    let info := defaultProtocol raw.VmessInfo
    match env.NewFromLink info.Protocol (env.ExportToURL info) with
    | none => migrateServersLoop env rest acc (log ++ [MigEvent.warn ("failed to migrate: " ++ info.Ps)])
    | some obj =>
      migrateServersLoop env rest (acc ++ [{ ServerObj := obj, Latency := raw.Latency }]) log

/-- The outer loop over v1 subscriptions; the inner loop over the nested
servers is the same statement sequence as the server loop, started from an
empty slice for every subscription. -/
def migrateSubscriptionsLoop {Obj : Type} (env : MigrateEnv Obj) :
    List SubscriptionRaw → List (SubscriptionRawV2 Obj) → List (MigEvent Obj) →
      List (SubscriptionRawV2 Obj) × List (MigEvent Obj)
  | [], acc, log => (acc, log)
  | raw :: rest, acc, log =>
    let inner := migrateServersLoop env raw.Servers [] log
    let subRawV2 : SubscriptionRawV2 Obj :=
      { Remarks := raw.Remarks
        Address := raw.Address
        Status := raw.Status
        Servers := inner.1
        Info := raw.Info }
    migrateSubscriptionsLoop env rest (acc ++ [subRawV2]) inner.2

/-- The server half of `migrateServerFormat` (lines 119-140): returns the
batch that was built, the store afterwards and the events. -/
def migrateServerFormatServers {Obj : Type} (env : MigrateEnv Obj) (s : Store Obj) :
    List (ServerRawV2 Obj) × Store Obj × List (MigEvent Obj) :=
  let r := migrateServersLoop env (GetServers s) [] []
  let serverRawV2 := r.1
  if serverRawV2.length > 0 then
    if env.appendServersFails serverRawV2 then
      (serverRawV2, s,
        r.2 ++ [MigEvent.appendServers serverRawV2, MigEvent.warn "failed to migrate: AppendServers error"])
    else
      (serverRawV2, AppendServers s serverRawV2, r.2 ++ [MigEvent.appendServers serverRawV2])
  else
    (serverRawV2, s, r.2)

/-- The subscription half of `migrateServerFormat` (lines 141-173). -/
def migrateServerFormatSubscriptions {Obj : Type} (env : MigrateEnv Obj) (s : Store Obj) :
    List (SubscriptionRawV2 Obj) × Store Obj × List (MigEvent Obj) :=
  let r := migrateSubscriptionsLoop env (GetSubscriptions s) [] []
  let subV2 := r.1
  if subV2.length > 0 then
    if env.appendSubscriptionsFails subV2 then
      (subV2, s,
        r.2 ++ [MigEvent.appendSubscriptions subV2,
          MigEvent.warn "failed to migrate: AppendSubscriptions error"])
    else
      (subV2, AppendSubscriptions s subV2, r.2 ++ [MigEvent.appendSubscriptions subV2])
  else
    (subV2, s, r.2)

/-- The function `migrateServerFormat`: the server half followed by the
subscription half, on the store left by the first. -/
def migrateServerFormat {Obj : Type} (env : MigrateEnv Obj) (s : Store Obj) :
    Store Obj × List (MigEvent Obj) :=
  let a := migrateServerFormatServers env s
  let b := migrateServerFormatSubscriptions env a.2.1
  (b.2.1, a.2.2 ++ b.2.2)

/-! ### Reference descriptions used to state the upgrade properties -/

/-- The reconstruction of one v1 entry as the claim words it: default the
tag, parse the exported link, keep the original latency. -/
def reconstruct {Obj : Type} (env : MigrateEnv Obj) (raw : ServerRaw) : Option (ServerRawV2 Obj) :=
  let tag := if raw.VmessInfo.Protocol = "" then "vmess" else raw.VmessInfo.Protocol
  (env.NewFromLink tag (env.ExportToURL { raw.VmessInfo with Protocol := tag })).map
    fun obj => { ServerObj := obj, Latency := raw.Latency }

/-- The v2 record expected for one v1 subscription. -/
def upgradeSubscription {Obj : Type} (env : MigrateEnv Obj) (raw : SubscriptionRaw) :
    SubscriptionRawV2 Obj :=
  { Remarks := raw.Remarks
    Address := raw.Address
    Status := raw.Status
    Servers := raw.Servers.filterMap (reconstruct env)
    Info := raw.Info }

/-- The `AppendServers` calls recorded in a trace, in order. -/
def appendServersCalls {Obj : Type} : List (MigEvent Obj) → List (List (ServerRawV2 Obj))
  | [] => []
  | MigEvent.appendServers b :: rest => b :: appendServersCalls rest
  | _ :: rest => appendServersCalls rest

/-- The `AppendSubscriptions` calls recorded in a trace, in order. -/
def appendSubscriptionsCalls {Obj : Type} :
    List (MigEvent Obj) → List (List (SubscriptionRawV2 Obj))
  | [] => []
  | MigEvent.appendSubscriptions b :: rest => b :: appendSubscriptionsCalls rest
  | _ :: rest => appendSubscriptionsCalls rest


/-! ## Legacy-JSON search and default initialisation -/

/-- Collaborators of `migrate` and `initDBValue`. -/
structure LegacyEnv (Obj : Type) where
  /-- Whether `os.Stat path` returns a nil error. -/
  stat : String → Bool
  /-- The call `os.ReadFile path`; `none` is an error. -/
  ReadFile : String → Option String
  /-- The call `jsoniter.Unmarshal` into a configuration; `none` is an error. -/
  Unmarshal : String → Option (Configure Obj)
  /-- Whether `configure.SetConfigure` reports an error for an object. -/
  setConfigureFails : Configure Obj → Bool
  /-- The object built by `configure.New()`. -/
  New : Configure Obj

/-- Result of a step of the migration pipeline. -/
structure MigResult (Obj : Type) where
  store : Store Obj
  /-- True when the step ended without error. -/
  ok : Bool
  log : List (MigEvent Obj)
  /-- True when `log.Fatal` ended the process. -/
  exited : Bool

/-- The function `migrate`: read the file, decode it, write it to the store.
The deferred closure logs the outcome last. -/
def migrate {Obj : Type} (env : LegacyEnv Obj) (s : Store Obj) (jsonConfPath : String) :
    MigResult Obj :=
  let log0 := [MigEvent.info "Migrating json to nutsdb...", MigEvent.readFile jsonConfPath]
  match env.ReadFile jsonConfPath with
  | none =>
    { store := s, ok := false, exited := false,
      log := log0 ++ [MigEvent.warn "Migrating failed: read"] }
  | some b =>
    match env.Unmarshal b with
    | none =>
      { store := s, ok := false, exited := false,
        log := log0 ++ [MigEvent.warn "Migrating failed: unmarshal"] }
    | some cfg =>
      if env.setConfigureFails cfg then
        { store := s, ok := false, exited := false,
          log := log0 ++ [MigEvent.setConfigure cfg, MigEvent.warn "Migrating failed: set"] }
      else
        { store := SetConfigure s cfg, ok := true, exited := false,
          log := log0 ++ [MigEvent.setConfigure cfg, MigEvent.info "Migrating complete"] }

/-- The function `initDBValue`: write the default configuration, exiting the
process when the write fails. -/
def initDBValue {Obj : Type} (env : LegacyEnv Obj) (s : Store Obj) : MigResult Obj :=
  if env.setConfigureFails env.New then
    { store := s, ok := false, exited := true,
      log := [MigEvent.info "init DB", MigEvent.setConfigure env.New,
        MigEvent.fatal "initDBValue"] }
  else
    { store := SetConfigure s env.New, ok := true, exited := false,
      log := [MigEvent.info "init DB", MigEvent.setConfigure env.New] }

/-- The loop `for _, jsonConfPath := range camp` of `initConfigure`; `ok`
is the variable `success`. -/
def legacySearch {Obj : Type} (env : LegacyEnv Obj) :
    List String → Store Obj → List (MigEvent Obj) → MigResult Obj
  | [], s, log => { store := s, ok := false, log := log, exited := false }
  | jsonConfPath :: rest, s, log =>
    if env.stat jsonConfPath then
      let r := migrate env s jsonConfPath
      let log1 := log ++ [MigEvent.stat jsonConfPath,
        MigEvent.info ("migrate from " ++ jsonConfPath)] ++ r.log
      if r.ok then
        { store := r.store, ok := true, log := log1, exited := false }
      else
        legacySearch env rest r.store log1
    else
      legacySearch env rest s (log ++ [MigEvent.stat jsonConfPath])

/-- The candidate list `camp` of `initConfigure`; `localJson` stands for
`path.Join(path.Dir(confPath), "v2raya.json")`. -/
def camp (localJson : String) : List String :=
  [localJson, "/etc/v2ray/v2raya.json", "/etc/v2raya/v2raya.json"]

/-- The test guarding the schema upgrade in `initConfigure`. -/
def needsServerFormatMigration {Obj : Type} (s : Store Obj) : Bool :=
  decide ((GetServers s).length + (GetSubscriptions s).length > 0) &&
    decide ((GetServersV2 s).length + (GetSubscriptionsV2 s).length = 0)

/-- The store part of `initConfigure` (lines 196-220) over a candidate list. -/
def initConfigureStore {Obj : Type} (env : LegacyEnv Obj) (menv : MigrateEnv Obj)
    (paths : List String) (s : Store Obj) : MigResult Obj :=
  if IsConfigureNotExists s then
    let r := legacySearch env paths s []
    if !r.ok then
      let d := initDBValue env r.store
      { store := d.store, ok := d.ok, log := r.log ++ d.log, exited := d.exited }
    else
      r
  else
    if needsServerFormatMigration s then
      let m := migrateServerFormat menv s
      { store := m.1, ok := true, exited := false,
        log := [MigEvent.info "migrating server format from v1 to v2..."] ++ m.2 }
    else
      { store := s, ok := true, log := [], exited := false }

/-- A store is schema-current unless its v1 lists are non-empty while its v2
lists are empty. -/
def schemaCurrent {Obj : Type} (s : Store Obj) : Bool :=
  !needsServerFormatMigration s

/-- The configurations handed to `SetConfigure` in a trace, in order. -/
def setConfigureCalls {Obj : Type} : List (MigEvent Obj) → List (Configure Obj)
  | [] => []
  | MigEvent.setConfigure c :: rest => c :: setConfigureCalls rest
  | _ :: rest => setConfigureCalls rest

/-- The events of one candidate that exists but fails to migrate, or that
does not exist, as the search loop records them. -/
def attemptLog {Obj : Type} (env : LegacyEnv Obj) (s : Store Obj) (path : String) :
    List (MigEvent Obj) :=
  if env.stat path then
    [MigEvent.stat path, MigEvent.info ("migrate from " ++ path)] ++ (migrate env s path).log
  else
    [MigEvent.stat path]

/-- The configuration a candidate path decodes to when it exists, is read,
decoded and written without error. -/
def migratesTo {Obj : Type} (env : LegacyEnv Obj) (path : String) : Option (Configure Obj) :=
  if env.stat path then
    match env.ReadFile path with
    | none => none
    | some b =>
      match env.Unmarshal b with
      | none => none
      | some cfg => if env.setConfigureFails cfg then none else some cfg
  else
    none

/-! ## Network readiness gate -/

/-- The pair returned by `resolv.LookupHost`. -/
structure LookupResult where
  addrs : List String
  err : Option String
  deriving DecidableEq, Repr

/-- Effects of the readiness loop. -/
inductive GateEvent where
  | lookupHost (host : String)
  | alert (msg : String)
  | sleep (seconds : Nat)
  deriving DecidableEq, Repr

/-- The loop condition `err == nil && len(addrs) > 0`. -/
def lookupSucceeded (r : LookupResult) : Bool :=
  r.err.isNone && decide (r.addrs.length > 0)

/-- The readiness loop of `initConfigure` followed by the connected notice,
run against the successive results of the resolver.  `none` means that every
scripted attempt failed, so the loop is still waiting. -/
def waitNetwork : List LookupResult → List GateEvent → Option (List GateEvent)
  | [], _ => none
  | r :: rest, log =>
    if lookupSucceeded r then
      some (log ++ [GateEvent.lookupHost "apple.com", GateEvent.alert "network is connected"])
    else
      waitNetwork rest (log ++ [GateEvent.lookupHost "apple.com",
        GateEvent.alert "waiting for network connected", GateEvent.sleep 5])

/-! ## Asset provisioner -/

/-- Collaborators of the tail of `initConfigure`. -/
structure AssetEnv where
  /-- Whether `where.GetV2rayBinPath` returns a nil error. -/
  v2rayBinFound : Bool
  /-- The result of `asset.IsGeoipExists`. -/
  geoipExists : Bool
  /-- The result of `asset.IsGeositeExists`. -/
  geositeExists : Bool
  /-- The directory `asset.GetV2rayLocationAsset()`. -/
  locationAsset : String
  /-- The function `path.Join` on two components. -/
  join : String → String → String
  /-- The call `http.Get url`: the response body handle, or an error. -/
  httpGet : String → Except String String
  /-- The call `io.ReadAll` on a response body. -/
  readAll : String → Except String String
  /-- The expression `gjson.GetBytes(b, "0.name").String()`. -/
  firstTagName : String → String
  /-- The call `gopeed.Down` for a URL and a destination path. -/
  down : String → String → Option String
  /-- The call `os.Chmod path 0755`. -/
  chmod : String → Option String

/-- Effects of the asset provisioner. -/
inductive AssetEvent where
  | warn (msg : String)
  | httpGet (url : String)
  | readAll
  | bodyClose
  | down (url : String) (dest : String)
  | chmod (path : String)
  | rename (src : String) (dst : String)
  deriving DecidableEq, Repr

/-- The URL of the tag listing of a repository. -/
def tagsURL (repo : String) : String :=
  "https://api.github.com/repos/" ++ repo ++ "/tags"

/-- The format `https://cdn.jsdelivr.net/gh/%v@%v/%v`. -/
def downloadURL (repo tag filename : String) : String :=
  "https://cdn.jsdelivr.net/gh/" ++ repo ++ "@" ++ tag ++ "/" ++ filename

/-- The closure `dld`: returns the error (if any) and the effects. -/
def dld (env : AssetEnv) (repo filename localname : String) : Option String × List AssetEvent :=
  let p := env.join env.locationAsset filename
  let log0 := [AssetEvent.warn ("installing " ++ filename), AssetEvent.httpGet (tagsURL repo)]
  match env.httpGet (tagsURL repo) with
  | Except.error e => (some e, log0)
  | Except.ok body =>
    match env.readAll body with
    | Except.error e => (some e, log0 ++ [AssetEvent.readAll, AssetEvent.bodyClose])
    | Except.ok b =>
      let tag := env.firstTagName b
      let u := downloadURL repo tag filename
      let log1 := log0 ++ [AssetEvent.readAll, AssetEvent.down u p]
      match env.down u p with
      | some e => (some ("download<" ++ p ++ ">: " ++ e), log1 ++ [AssetEvent.bodyClose])
      | none =>
        match env.chmod p with
        | some e => (some ("chmod: " ++ e), log1 ++ [AssetEvent.chmod p, AssetEvent.bodyClose])
        | none =>
          (none, log1 ++ [AssetEvent.chmod p,
            AssetEvent.rename p (env.join env.locationAsset localname), AssetEvent.bodyClose])

/-- A call of `dld` followed by the warning logged when it fails. -/
def dldAndWarn (env : AssetEnv) (repo filename localname : String) : List AssetEvent :=
  let r := dld env repo filename localname
  match r.1 with
  | some e => r.2 ++ [AssetEvent.warn ("initConfigure: " ++ repo ++ ": " ++ e)]
  | none => r.2

/-- The asset part of `initConfigure` (lines 229-269). -/
def provisionAssets (env : AssetEnv) : List AssetEvent :=
  if env.v2rayBinFound then
    if !env.geoipExists || !env.geositeExists then
      dldAndWarn env "v2rayA/dist-geoip" "geoip.dat" "geoip.dat" ++
        dldAndWarn env "v2rayA/dist-domain-list-community" "dlc.dat" "geosite.dat"
    else
      []
  else
    []

/-- Whether provisioning of a repository was started: its tag listing was requested. -/
def attempted (repo : String) (log : List AssetEvent) : Bool :=
  log.contains (AssetEvent.httpGet (tagsURL repo))

/-! ## Auto-update scheduler -/

/-- Modelled from the spec: the auto-update mode enum of package `configure`;
`AutoUpdate` is "update on every start". -/
inductive AutoUpdateMode where
  | Disabled
  | AutoUpdate
  | AutoUpdateAtIntervals
  deriving DecidableEq, Repr

/-- Modelled from the spec: the transparent-proxy mode of package `configure`;
only `TransparentGfwlist` is distinguished by `checkUpdate`. -/
inductive TransparentMode where
  | TransparentGfwlist
  | other (name : String)
  deriving DecidableEq, Repr

/-- Modelled from the spec: the rule-port mode of package `configure`. -/
inductive RulePortMode where
  | GfwlistMode
  | CustomMode
  | other (name : String)
  deriving DecidableEq, Repr

/-- The fields of `configure.Setting` read by `checkUpdate`. -/
structure Setting where
  GFWListAutoUpdateMode : AutoUpdateMode
  GFWListAutoUpdateIntervalHour : Int
  SubscriptionAutoUpdateMode : AutoUpdateMode
  SubscriptionAutoUpdateIntervalHour : Int
  Transparent : TransparentMode
  RulePortMode : RulePortMode
  deriving DecidableEq, Repr

/-- Goroutines started by the scheduler. -/
inductive Task where
  | gfwListTickerLoop
  | subscriptionTickerLoop
  | checkAndUpdateGFWList
  | updateSubscriptions
  | versionCheckLoop
  deriving DecidableEq, Repr

/-- Two's-complement wrap of an integer to 64 bits, as `int64` arithmetic does. -/
def wrapInt64 (x : Int) : Int :=
  (x + 2 ^ 63) % 2 ^ 64 - 2 ^ 63

/-- The constant `time.Hour` in nanoseconds. -/
def Hour : Int := 3600 * 1000000000

/-- The sentinel period `24 * time.Hour * 365 * 100`. -/
def sentinelPeriod : Int := wrapInt64 (24 * Hour * 365 * 100)

/-- The expression `time.Duration(h) * time.Hour`. -/
def hoursDuration (h : Int) : Int := wrapInt64 (wrapInt64 h * Hour)

/-- The scheduler state: the period of each ticker in nanoseconds, the
goroutines started so far, and whether a call has panicked. -/
structure Sched where
  TickerUpdateGFWList : Int
  TickerUpdateSubscription : Int
  launched : List Task
  panicked : Bool
  deriving DecidableEq, Repr

/-- The function `initUpdatingTicker`. -/
def initUpdatingTicker : Sched :=
  { TickerUpdateGFWList := sentinelPeriod
    TickerUpdateSubscription := sentinelPeriod
    launched := [Task.gfwListTickerLoop, Task.subscriptionTickerLoop]
    panicked := false }

/-- The call `conf.TickerUpdateGFWList.Reset d`; `Ticker.Reset` panics on a
non-positive period. -/
def resetGFWList (d : Int) (s : Sched) : Sched :=
  if d ≤ 0 then { s with panicked := true } else { s with TickerUpdateGFWList := d }

/-- The call `conf.TickerUpdateSubscription.Reset d`. -/
def resetSubscription (d : Int) (s : Sched) : Sched :=
  if d ≤ 0 then { s with panicked := true } else { s with TickerUpdateSubscription := d }

/-- The statement `go f()`. -/
def go (t : Task) (s : Sched) : Sched :=
  { s with launched := s.launched ++ [t] }

/-- Runs a statement unless an earlier one has panicked. -/
def andThen (s : Sched) (f : Sched → Sched) : Sched :=
  if s.panicked then s else f s

/-- The rule-list block of `checkUpdate` (lines 334-354). -/
def checkUpdateGFWList (setting : Setting) (s : Sched) : Sched :=
  if setting.GFWListAutoUpdateMode = AutoUpdateMode.AutoUpdate ∨
      setting.GFWListAutoUpdateMode = AutoUpdateMode.AutoUpdateAtIntervals ∨
      setting.Transparent = TransparentMode.TransparentGfwlist then
    let s1 :=
      if setting.GFWListAutoUpdateMode = AutoUpdateMode.AutoUpdateAtIntervals then
        resetGFWList (hoursDuration setting.GFWListAutoUpdateIntervalHour) s
      else s
    andThen s1 fun s2 =>
      match setting.RulePortMode with
      | RulePortMode.GfwlistMode => go Task.checkAndUpdateGFWList s2
      | RulePortMode.CustomMode => s2
      | RulePortMode.other _ => s2
  else
    s

/-- The subscription block of `checkUpdate` (lines 357-364). -/
def checkUpdateSubscription (setting : Setting) (s : Sched) : Sched :=
  if setting.SubscriptionAutoUpdateMode = AutoUpdateMode.AutoUpdate ∨
      setting.SubscriptionAutoUpdateMode = AutoUpdateMode.AutoUpdateAtIntervals then
    let s1 :=
      if setting.SubscriptionAutoUpdateMode = AutoUpdateMode.AutoUpdateAtIntervals then
        resetSubscription (hoursDuration setting.SubscriptionAutoUpdateIntervalHour) s
      else s
    andThen s1 (go Task.updateSubscriptions)
  else
    s

/-- The function `checkUpdate`. -/
def checkUpdate (setting : Setting) : Sched :=
  andThen (andThen (andThen initUpdatingTicker (checkUpdateGFWList setting))
    (checkUpdateSubscription setting)) (go Task.versionCheckLoop)

/-! ## Lifecycle controller -/

/-- The first event that reaches the rendezvous channel `errch`. -/
inductive FirstEvent where
  | servingError (err : String)
  | servingReturned
  | signal
  deriving DecidableEq, Repr

/-- The value sent on `errch` for an event: `router.Run()` forwards its own
result, the signal goroutine sends nil. -/
def sentOnErrch : FirstEvent → Option String
  | FirstEvent.servingError e => some e
  | FirstEvent.servingReturned => none
  | FirstEvent.signal => none

/-- Effects of `run`. -/
inductive RunEvent where
  | updateV2RayConfig
  | logError (msg : String)
  | logFatal (msg : String)
  | println (msg : String)
  | checkAndStopTransparentProxy
  | processManagerStop
  | dbClose
  deriving DecidableEq, Repr

/-- How `run` ends. -/
inductive RunOutcome where
  | returnedNil
  | processExited
  deriving DecidableEq, Repr

/-- The function `run`.  `running` is `configure.GetRunning()`, `updateErr`
the result of `v2ray.UpdateV2RayConfig()`, `ev` the first value received from
`errch`.  `fatalExits` tells whether `log.Fatal` (package `pkg/util/log`, not
part of the shown sources) ends the process, as the spec describes it, or
returns to its caller. -/
def run (fatalExits : Bool) (running : Bool) (updateErr : Option String) (ev : FirstEvent) :
    List RunEvent × RunOutcome :=
  let startup :=
    if running then
      match updateErr with
      | some e => [RunEvent.updateV2RayConfig, RunEvent.logError ("failed to start v2ray-core: " ++ e)]
      | none => [RunEvent.updateV2RayConfig]
    else []
  let shutdown := [RunEvent.println "Quitting...", RunEvent.checkAndStopTransparentProxy,
    RunEvent.processManagerStop, RunEvent.dbClose]
  match sentOnErrch ev with
  | some e =>
    if fatalExits then
      (startup ++ [RunEvent.logFatal ("run: " ++ e)], RunOutcome.processExited)
    else
      (startup ++ [RunEvent.logFatal ("run: " ++ e)] ++ shutdown, RunOutcome.returnedNil)
  | none => (startup ++ shutdown, RunOutcome.returnedNil)

/-- The three shutdown steps, in the order the claim names them. -/
def shutdownSequence : List RunEvent :=
  [RunEvent.checkAndStopTransparentProxy, RunEvent.processManagerStop, RunEvent.dbClose]

/-- The shutdown steps occurring in a trace, in order. -/
def shutdownSteps (log : List RunEvent) : List RunEvent :=
  log.filter fun e => decide (e ∈ shutdownSequence)

/-- Whether the fatal-log path was taken. -/
def fatalTaken (log : List RunEvent) : Bool :=
  log.any fun e => match e with
    | RunEvent.logFatal _ => true
    | _ => false

/-- The events of a trace up to the first shutdown step. -/
def beforeShutdown (log : List RunEvent) : List RunEvent :=
  log.takeWhile fun e => !decide (e ∈ shutdownSequence)

/-! ## Subscription refresh round: `updateSubscriptions` -/

/-- Where a worker goroutine stands in its body. -/
inductive WorkerPc where
  /-- Before `control <- struct{}{}`. -/
  | waiting
  /-- Slot acquired, inside `service.UpdateSubscription`. -/
  | calling
  /-- The call has returned; `ok` is `err == nil`. -/
  | returned (ok : Bool)
  /-- The outcome is logged, `wg.Done()` is next. -/
  | logged
  /-- After `wg.Done()`, before `<-control`. -/
  | signalled
  /-- Slot released, goroutine ended. -/
  | finished
  deriving DecidableEq, Repr

/-- The capacity of the channel `control`. -/
def controlCapacity : Nat := 2

/-- State of one refresh round. -/
structure RoundState where
  workers : List WorkerPc
  /-- Number of elements buffered in the channel `control`. -/
  control : Nat
  /-- Counter of the wait group. -/
  wg : Nat
  /-- Outcome log lines: worker index and whether the call succeeded. -/
  log : List (Nat × Bool)
  deriving DecidableEq, Repr

/-- One atomic step of one worker. -/
inductive Action where
  | acquire (i : Nat)
  | callReturns (i : Nat) (ok : Bool)
  | logOutcome (i : Nat)
  | wgDone (i : Nat)
  | release (i : Nat)
  deriving DecidableEq, Repr

/-- The state after the spawning loop: `lenSubs` workers, none of which has
sent on `control` yet. -/
def initRound (lenSubs : Nat) : RoundState :=
  { workers := List.replicate lenSubs WorkerPc.waiting, control := 0, wg := lenSubs, log := [] }

/-- The step function: `none` when the action is not enabled.  A send on
`control` blocks while the buffer is full, a receive while it is empty. -/
def step (s : RoundState) : Action → Option RoundState
  | Action.acquire i =>
    if s.workers[i]? = some WorkerPc.waiting ∧ s.control < controlCapacity then
      some { s with workers := s.workers.set i WorkerPc.calling, control := s.control + 1 }
    else none
  | Action.callReturns i ok =>
    if s.workers[i]? = some WorkerPc.calling then
      some { s with workers := s.workers.set i (WorkerPc.returned ok) }
    else none
  | Action.logOutcome i =>
    match s.workers[i]? with
    | some (WorkerPc.returned ok) =>
      some { s with workers := s.workers.set i WorkerPc.logged, log := s.log ++ [(i, ok)] }
    | _ => none
  | Action.wgDone i =>
    if s.workers[i]? = some WorkerPc.logged then
      some { s with workers := s.workers.set i WorkerPc.signalled, wg := s.wg - 1 }
    else none
  | Action.release i =>
    if s.workers[i]? = some WorkerPc.signalled ∧ 0 < s.control then
      some { s with workers := s.workers.set i WorkerPc.finished, control := s.control - 1 }
    else none

/-- Runs a schedule: the interleaving given as a list of actions. -/
def runActions : RoundState → List Action → Option RoundState
  | s, [] => some s
  | s, a :: rest =>
    match step s a with
    | none => none
    | some s1 => runActions s1 rest

/-- A worker holds a slot of `control` from its send to its receive. -/
def holdsSlot : WorkerPc → Bool
  | WorkerPc.waiting => false
  | WorkerPc.finished => false
  | _ => true

/-- Number of workers inside the refresh call. -/
def inCall (s : RoundState) : Nat :=
  s.workers.countP fun pc => decide (pc = WorkerPc.calling)

/-- Number of workers holding a slot. -/
def slotHolders (s : RoundState) : Nat :=
  s.workers.countP holdsSlot

/-! ## Concrete inputs -/

/-- A link parser that knows the "vmess" protocol only, with store appends
that always succeed. -/
def vmessOnlyEnv : MigrateEnv String :=
  { NewFromLink := fun protocol link => if protocol = "vmess" then some link else none
    ExportToURL := fun info => info.Protocol ++ "://" ++ info.Rest
    appendServersFails := fun _ => false
    appendSubscriptionsFails := fun _ => false }

/-- A v1 server whose protocol tag the parser does not know. -/
def trojanServer : ServerRaw :=
  { VmessInfo := { Ps := "node-a", Protocol := "trojan", Rest := "secret@host:443" }
    Latency := "35ms" }

/-- A v1 server with an empty protocol tag. -/
def untaggedServer : ServerRaw :=
  { VmessInfo := { Ps := "node-b", Protocol := "", Rest := "uuid@host:10086" }
    Latency := "20ms" }

/-- A store holding one v1 server and nothing else. -/
def v1OnlyStore : Store String :=
  { configure := some
      { Servers := [trojanServer]
        Subscriptions := []
        ServersV2 := []
        SubscriptionsV2 := [] } }

/-- A store without a configuration object. -/
def absentStore : Store String :=
  { configure := none }

/-- A legacy configuration holding one v1 server. -/
def legacyConfigure : Configure String :=
  { Servers := [untaggedServer], Subscriptions := [], ServersV2 := [], SubscriptionsV2 := [] }

/-- A file system in which `/etc/v2ray/v2raya.json` exists but does not
decode, and `/etc/v2raya/v2raya.json` exists and decodes to
`legacyConfigure`; store writes succeed. -/
def legacyFileEnv : LegacyEnv String :=
  { stat := fun path =>
      decide (path = "/etc/v2ray/v2raya.json") || decide (path = "/etc/v2raya/v2raya.json")
    ReadFile := fun path =>
      if path = "/etc/v2raya/v2raya.json" then some "legacy"
      else if path = "/etc/v2ray/v2raya.json" then some "broken"
      else none
    Unmarshal := fun b => if b = "legacy" then some legacyConfigure else none
    setConfigureFails := fun _ => false
    New := { Servers := [], Subscriptions := [], ServersV2 := [], SubscriptionsV2 := [] } }

/-- The effects of one failed resolution attempt. -/
def waitingRound : List GateEvent :=
  [GateEvent.lookupHost "apple.com", GateEvent.alert "waiting for network connected",
    GateEvent.sleep 5]

/-- The effects of `k` failed attempts followed by a successful one. -/
def gateTrace (k : Nat) : List GateEvent :=
  (List.replicate k waitingRound).flatten ++
    [GateEvent.lookupHost "apple.com", GateEvent.alert "network is connected"]

/-- A resolver script: an error, then an empty answer, then an address. -/
def twoFailures : List LookupResult :=
  [{ addrs := [], err := some "no such host" }, { addrs := [], err := none }]

/-- A successful resolution. -/
def resolved : LookupResult :=
  { addrs := ["17.253.144.10"], err := none }

/-- An environment in which the v2ray binary is found, the IP-range file is
present, the domain-list file is missing and every network and file call
succeeds. -/
def geoipPresentEnv : AssetEnv :=
  { v2rayBinFound := true
    geoipExists := true
    geositeExists := false
    locationAsset := "/usr/share/v2ray"
    join := fun dir file => dir ++ "/" ++ file
    httpGet := fun url => Except.ok url
    readAll := fun _ => Except.ok "tags"
    firstTagName := fun _ => "v1.2.3"
    down := fun _ _ => none
    chmod := fun _ => none }

/-- An environment in which the v2ray binary is not found and both asset
files are missing. -/
def noBinaryEnv : AssetEnv :=
  { geoipPresentEnv with v2rayBinFound := false, geoipExists := false }

/-- An environment in which both files are missing and the tag listing of the
IP-range repository cannot be fetched. -/
def geoipFailsEnv : AssetEnv :=
  { geoipPresentEnv with
    geoipExists := false
    httpGet := fun url =>
      if url = tagsURL "v2rayA/dist-geoip" then Except.error "timeout" else Except.ok url }

/-- Rule-list refresh every 6 hours, subscriptions disabled. -/
def sixHourSetting : Setting :=
  { GFWListAutoUpdateMode := AutoUpdateMode.AutoUpdateAtIntervals
    GFWListAutoUpdateIntervalHour := 6
    SubscriptionAutoUpdateMode := AutoUpdateMode.Disabled
    SubscriptionAutoUpdateIntervalHour := 0
    Transparent := TransparentMode.other "close"
    RulePortMode := RulePortMode.other "whitelist" }

/-- Rule-list refresh on every start while the rule-port mode is not the
GFW list. -/
def everyStartWhitelistSetting : Setting :=
  { GFWListAutoUpdateMode := AutoUpdateMode.AutoUpdate
    GFWListAutoUpdateIntervalHour := 0
    SubscriptionAutoUpdateMode := AutoUpdateMode.Disabled
    SubscriptionAutoUpdateIntervalHour := 0
    Transparent := TransparentMode.other "close"
    RulePortMode := RulePortMode.other "whitelist" }

/-- Rule-list auto-update disabled while the transparent proxy and the rule
port both follow the GFW list. -/
def disabledGfwlistSetting : Setting :=
  { GFWListAutoUpdateMode := AutoUpdateMode.Disabled
    GFWListAutoUpdateIntervalHour := 0
    SubscriptionAutoUpdateMode := AutoUpdateMode.Disabled
    SubscriptionAutoUpdateIntervalHour := 0
    Transparent := TransparentMode.TransparentGfwlist
    RulePortMode := RulePortMode.GfwlistMode }

/-- Rule-list auto-update disabled, nothing following the GFW list. -/
def disabledSetting : Setting :=
  { disabledGfwlistSetting with
    Transparent := TransparentMode.other "close"
    RulePortMode := RulePortMode.other "whitelist" }

/-- Every subject refreshed on every start, rule port following the GFW list. -/
def everyStartSetting : Setting :=
  { GFWListAutoUpdateMode := AutoUpdateMode.AutoUpdate
    GFWListAutoUpdateIntervalHour := 0
    SubscriptionAutoUpdateMode := AutoUpdateMode.AutoUpdate
    SubscriptionAutoUpdateIntervalHour := 0
    Transparent := TransparentMode.other "close"
    RulePortMode := RulePortMode.GfwlistMode }

/-- The intervals of the fixed-interval subjects are positive durations, so
that no `Reset` panics. -/
def intervalsValid (setting : Setting) : Prop :=
  (setting.GFWListAutoUpdateMode = AutoUpdateMode.AutoUpdateAtIntervals →
    0 < hoursDuration setting.GFWListAutoUpdateIntervalHour) ∧
  (setting.SubscriptionAutoUpdateMode = AutoUpdateMode.AutoUpdateAtIntervals →
    0 < hoursDuration setting.SubscriptionAutoUpdateIntervalHour)

instance (setting : Setting) : Decidable (intervalsValid setting) := by
  unfold intervalsValid
  infer_instance

/-- Subscriptions refreshed on every start while the rule-list is on a fixed
interval of 0 hours. -/
def zeroIntervalSetting : Setting :=
  { GFWListAutoUpdateMode := AutoUpdateMode.AutoUpdateAtIntervals
    GFWListAutoUpdateIntervalHour := 0
    SubscriptionAutoUpdateMode := AutoUpdateMode.AutoUpdate
    SubscriptionAutoUpdateIntervalHour := 0
    Transparent := TransparentMode.other "close"
    RulePortMode := RulePortMode.GfwlistMode }

/-- The steps of one worker from the return of its refresh call to its end. -/
def finishCall (i : Nat) (ok : Bool) : List Action :=
  [Action.callReturns i ok, Action.logOutcome i, Action.wgDone i, Action.release i]

/-- A schedule of a round with three subscriptions: two workers enter the
call, the third has to wait. -/
def twoEnterSchedule : List Action :=
  [Action.acquire 2, Action.acquire 0]

/-- The gate invariant: the buffer of `control` holds one element per worker
between its send and its receive, and never more than its capacity. -/
def gateInvariant (s : RoundState) : Prop :=
  s.control = slotHolders s ∧ s.control ≤ controlCapacity

/-- The state of a round of three subscriptions once workers 2 and 0 have
entered the call. -/
def gateFullState : RoundState :=
  { workers := [WorkerPc.calling, WorkerPc.waiting, WorkerPc.calling]
    control := 2
    wg := 3
    log := [] }

/-- A store holding five v1 servers, two of which carry a protocol tag the
parser does not know. -/
def fiveServerStore : Store String :=
  { configure := some
      { Servers := [untaggedServer, trojanServer, untaggedServer, trojanServer, untaggedServer]
        Subscriptions := []
        ServersV2 := []
        SubscriptionsV2 := [] } }

/-- A store holding one v1 server that parses and one that does not. -/
def mixedStore : Store String :=
  { configure := some
      { Servers := [trojanServer, untaggedServer]
        Subscriptions := []
        ServersV2 := []
        SubscriptionsV2 := [] } }

/-- An environment in which both asset files are present. -/
def bothPresentEnv : AssetEnv :=
  { geoipPresentEnv with geositeExists := true }

/-- A store with two v1 subscriptions: the nested servers of the first all
fail to parse, the second has one that parses and one that does not. -/
def subscriptionStore : Store String :=
  { configure := some
      { Servers := []
        Subscriptions :=
          [{ Remarks := "first", Address := "https://a.example/sub", Status := "ok",
             Servers := [trojanServer], Info := "" },
           { Remarks := "second", Address := "https://b.example/sub", Status := "ok",
             Servers := [trojanServer, untaggedServer], Info := "7 days" }]
        ServersV2 := []
        SubscriptionsV2 := [] } }

/-! ## Properties -/

section SchemaUpgrade

variable {Obj : Type}

theorem defaultProtocol_eq (info : VmessInfo) :
    defaultProtocol info =
      { info with Protocol := if info.Protocol = "" then "vmess" else info.Protocol } := by
  unfold defaultProtocol
  by_cases h : info.Protocol = "" <;> simp [h]

theorem defaultProtocol_protocol (info : VmessInfo) :
    (defaultProtocol info).Protocol = if info.Protocol = "" then "vmess" else info.Protocol := by
  rw [defaultProtocol_eq]

theorem migrateServersLoop_batch (env : MigrateEnv Obj) (l : List ServerRaw) :
    ∀ (acc : List (ServerRawV2 Obj)) (log : List (MigEvent Obj)),
      (migrateServersLoop env l acc log).1 = acc ++ l.filterMap (reconstruct env) := by
  induction l with
  | nil => intro acc log; simp [migrateServersLoop]
  | cons raw rest ih =>
    intro acc log
    have hp := defaultProtocol_protocol raw.VmessInfo
    have he := defaultProtocol_eq raw.VmessInfo
    cases hparse : env.NewFromLink (defaultProtocol raw.VmessInfo).Protocol
        (env.ExportToURL (defaultProtocol raw.VmessInfo)) with
    | none =>
      have hr : reconstruct env raw = none := by
        unfold reconstruct
        rw [hp, he] at hparse
        simp [hparse]
      simp only [migrateServersLoop, hparse, ih, List.filterMap_cons, hr]
    | some obj =>
      have hr : reconstruct env raw = some { ServerObj := obj, Latency := raw.Latency } := by
        unfold reconstruct
        rw [hp, he] at hparse
        simp [hparse]
      simp only [migrateServersLoop, hparse, ih, List.filterMap_cons, hr, List.append_assoc,
        List.singleton_append]

theorem appendServersCalls_append (a b : List (MigEvent Obj)) :
    appendServersCalls (a ++ b) = appendServersCalls a ++ appendServersCalls b := by
  induction a with
  | nil => rfl
  | cons e rest ih => cases e <;> simp [appendServersCalls, ih]

theorem appendSubscriptionsCalls_append (a b : List (MigEvent Obj)) :
    appendSubscriptionsCalls (a ++ b) =
      appendSubscriptionsCalls a ++ appendSubscriptionsCalls b := by
  induction a with
  | nil => rfl
  | cons e rest ih => cases e <;> simp [appendSubscriptionsCalls, ih]

theorem migrateServersLoop_calls (env : MigrateEnv Obj) (l : List ServerRaw) :
    ∀ (acc : List (ServerRawV2 Obj)) (log : List (MigEvent Obj)),
      appendServersCalls (migrateServersLoop env l acc log).2 = appendServersCalls log ∧
      appendSubscriptionsCalls (migrateServersLoop env l acc log).2 =
        appendSubscriptionsCalls log := by
  induction l with
  | nil => intro acc log; simp [migrateServersLoop]
  | cons raw rest ih =>
    intro acc log
    cases hparse : env.NewFromLink (defaultProtocol raw.VmessInfo).Protocol
        (env.ExportToURL (defaultProtocol raw.VmessInfo)) with
    | none =>
      simp only [migrateServersLoop, hparse]
      rw [(ih _ _).1, (ih _ _).2, appendServersCalls_append, appendSubscriptionsCalls_append]
      simp [appendServersCalls, appendSubscriptionsCalls]
    | some obj =>
      simp only [migrateServersLoop, hparse]
      exact ih _ _

theorem migrateSubscriptionsLoop_batch (env : MigrateEnv Obj) (l : List SubscriptionRaw) :
    ∀ (acc : List (SubscriptionRawV2 Obj)) (log : List (MigEvent Obj)),
      (migrateSubscriptionsLoop env l acc log).1 = acc ++ l.map (upgradeSubscription env) := by
  induction l with
  | nil => intro acc log; simp [migrateSubscriptionsLoop]
  | cons raw rest ih =>
    intro acc log
    simp only [migrateSubscriptionsLoop, ih, migrateServersLoop_batch, List.nil_append,
      List.map_cons, List.append_assoc, List.singleton_append, upgradeSubscription]

theorem migrateSubscriptionsLoop_calls (env : MigrateEnv Obj) (l : List SubscriptionRaw) :
    ∀ (acc : List (SubscriptionRawV2 Obj)) (log : List (MigEvent Obj)),
      appendServersCalls (migrateSubscriptionsLoop env l acc log).2 = appendServersCalls log ∧
      appendSubscriptionsCalls (migrateSubscriptionsLoop env l acc log).2 =
        appendSubscriptionsCalls log := by
  induction l with
  | nil => intro acc log; simp [migrateSubscriptionsLoop]
  | cons raw rest ih =>
    intro acc log
    simp only [migrateSubscriptionsLoop]
    rw [(ih _ _).1, (ih _ _).2]
    exact migrateServersLoop_calls env raw.Servers [] log

theorem length_filterMap_eq_countP_isSome {α β : Type} (f : α → Option β) (l : List α) :
    (l.filterMap f).length = l.countP (fun a => (f a).isSome) := by
  induction l with
  | nil => rfl
  | cons a rest ih =>
    cases h : f a <;> simp [List.filterMap_cons, List.countP_cons, h, ih]

theorem countP_isSome_add_isNone {α β : Type} (f : α → Option β) (l : List α) :
    l.countP (fun a => (f a).isSome) + l.countP (fun a => (f a).isNone) = l.length := by
  induction l with
  | nil => rfl
  | cons a rest ih =>
    cases h : f a <;> simp [List.countP_cons, h] <;> omega

theorem migrateServerFormatServers_batch (env : MigrateEnv Obj) (s : Store Obj) :
    (migrateServerFormatServers env s).1 = (GetServers s).filterMap (reconstruct env) := by
  unfold migrateServerFormatServers
  simp only [migrateServersLoop_batch, List.nil_append]
  split_ifs <;> rfl

theorem migrateServerFormatServers_calls (env : MigrateEnv Obj) (s : Store Obj) :
    appendServersCalls (migrateServerFormatServers env s).2.2 =
        (if ((GetServers s).filterMap (reconstruct env)).isEmpty then []
          else [(GetServers s).filterMap (reconstruct env)]) ∧
      appendSubscriptionsCalls (migrateServerFormatServers env s).2.2 = [] := by
  have hc := migrateServersLoop_calls env (GetServers s) [] []
  have hb := migrateServersLoop_batch env (GetServers s) [] []
  simp only [List.nil_append] at hb
  unfold migrateServerFormatServers
  simp only [hb]
  by_cases hnil : (GetServers s).filterMap (reconstruct env) = []
  · simp [hnil, hc.1, hc.2, appendServersCalls, appendSubscriptionsCalls]
  · have hpos : 0 < ((GetServers s).filterMap (reconstruct env)).length :=
      List.length_pos.mpr hnil
    have hne : ((GetServers s).filterMap (reconstruct env)).isEmpty = false := by
      simpa [List.isEmpty_iff] using hnil
    simp only [gt_iff_lt, hpos, if_true, hne, Bool.false_eq_true, if_false]
    split_ifs <;>
      simp [appendServersCalls_append, appendSubscriptionsCalls_append, hc.1, hc.2,
        appendServersCalls, appendSubscriptionsCalls]

theorem GetSubscriptions_after_servers (env : MigrateEnv Obj) (s : Store Obj) :
    GetSubscriptions (migrateServerFormatServers env s).2.1 = GetSubscriptions s := by
  unfold migrateServerFormatServers
  simp only
  split_ifs
  · rfl
  · cases s with
    | mk c => cases c <;> simp [AppendServers, GetSubscriptions]
  · rfl

theorem migrateServerFormatSubscriptions_batch (env : MigrateEnv Obj) (s : Store Obj) :
    (migrateServerFormatSubscriptions env s).1 =
      (GetSubscriptions s).map (upgradeSubscription env) := by
  unfold migrateServerFormatSubscriptions
  simp only [migrateSubscriptionsLoop_batch, List.nil_append]
  split_ifs <;> rfl

theorem migrateServerFormatSubscriptions_calls (env : MigrateEnv Obj) (s : Store Obj) :
    appendSubscriptionsCalls (migrateServerFormatSubscriptions env s).2.2 =
        (if GetSubscriptions s = [] then []
          else [(GetSubscriptions s).map (upgradeSubscription env)]) ∧
      appendServersCalls (migrateServerFormatSubscriptions env s).2.2 = [] := by
  have hc := migrateSubscriptionsLoop_calls env (GetSubscriptions s) [] []
  have hb := migrateSubscriptionsLoop_batch env (GetSubscriptions s) [] []
  simp only [List.nil_append] at hb
  unfold migrateServerFormatSubscriptions
  simp only [hb]
  by_cases hnil : GetSubscriptions s = []
  · simp [hnil, hc.1, hc.2, appendServersCalls, appendSubscriptionsCalls]
  · have hpos : 0 < ((GetSubscriptions s).map (upgradeSubscription env)).length := by
      rw [List.length_map]; exact List.length_pos.mpr hnil
    simp only [gt_iff_lt, hpos, if_true, hnil, if_false]
    split_ifs <;>
      simp [appendServersCalls_append, appendSubscriptionsCalls_append, hc.1, hc.2,
        appendServersCalls, appendSubscriptionsCalls]

/-- C1: the batch built by the server half of `migrateServerFormat` is, in
the original order, the list of v1 entries whose exported link parses under
their protocol tag (an empty tag being replaced by "vmess" first), each with
the parsed object and the original latency; its length is the number of
reconstructable entries (list length minus the number of failures), and over
the whole function `AppendServers` is called once with that batch when it is
non-empty and not at all when it is empty. -/
theorem migrateServerFormat_server_batch (env : MigrateEnv Obj) (s : Store Obj) :
    (migrateServerFormatServers env s).1 = (GetServers s).filterMap (reconstruct env) ∧
    (migrateServerFormatServers env s).1.length =
      (GetServers s).countP (fun raw => (reconstruct env raw).isSome) ∧
    (migrateServerFormatServers env s).1.length +
      (GetServers s).countP (fun raw => (reconstruct env raw).isNone) = (GetServers s).length ∧
    appendServersCalls (migrateServerFormat env s).2 =
      (if (migrateServerFormatServers env s).1.isEmpty then []
        else [(migrateServerFormatServers env s).1]) := by
  have hb := migrateServerFormatServers_batch env s
  refine ⟨hb, ?_, ?_, ?_⟩
  · rw [hb, length_filterMap_eq_countP_isSome]
  · rw [hb, length_filterMap_eq_countP_isSome, countP_isSome_add_isNone]
  · unfold migrateServerFormat
    simp only [appendServersCalls_append]
    rw [(migrateServerFormatServers_calls env s).1,
      (migrateServerFormatSubscriptions_calls env _).2, hb, List.append_nil]

/-- C1 on a list of five v1 servers of which two fail to parse: the batch
has three elements and is appended once. -/
theorem migrateServerFormat_three_of_five :
    (GetServers fiveServerStore).length = 5 ∧
    (GetServers fiveServerStore).countP (fun raw => (reconstruct vmessOnlyEnv raw).isNone) = 2 ∧
    (migrateServerFormatServers vmessOnlyEnv fiveServerStore).1.length = 3 ∧
    (appendServersCalls (migrateServerFormat vmessOnlyEnv fiveServerStore).2).length = 1 :=
  have h := migrateServerFormat_server_batch vmessOnlyEnv fiveServerStore
  ⟨by decide, by decide, h.2.1.trans (by decide), by rw [h.2.2.2]; decide⟩

/-- C2: the batch built by the subscription half of `migrateServerFormat` has
one v2 record per v1 subscription, in the same order, with Remarks, Address,
Status and Info copied and Servers equal to the in-order list of the nested
servers that parse; the record at each position depends on the subscription
at that position only, so a subscription is kept whatever happens to its
nested servers or to other subscriptions; `AppendSubscriptions` receives that
batch once when there is at least one subscription. -/
theorem migrateServerFormat_subscription_batch (env : MigrateEnv Obj) (s : Store Obj) :
    (migrateServerFormatSubscriptions env (migrateServerFormatServers env s).2.1).1 =
      (GetSubscriptions s).map (upgradeSubscription env) ∧
    (migrateServerFormatSubscriptions env (migrateServerFormatServers env s).2.1).1.length =
      (GetSubscriptions s).length ∧
    (∀ i : Nat,
      (migrateServerFormatSubscriptions env (migrateServerFormatServers env s).2.1).1[i]? =
        ((GetSubscriptions s)[i]?).map (upgradeSubscription env)) ∧
    appendSubscriptionsCalls (migrateServerFormat env s).2 =
      (if GetSubscriptions s = [] then []
        else [(GetSubscriptions s).map (upgradeSubscription env)]) := by
  have hb := migrateServerFormatSubscriptions_batch env (migrateServerFormatServers env s).2.1
  rw [GetSubscriptions_after_servers] at hb
  refine ⟨hb, ?_, ?_, ?_⟩
  · rw [hb, List.length_map]
  · intro i
    rw [hb, List.getElem?_map]
  · unfold migrateServerFormat
    simp only [appendSubscriptionsCalls_append]
    rw [(migrateServerFormatServers_calls env s).2,
      (migrateServerFormatSubscriptions_calls env _).1, GetSubscriptions_after_servers,
      List.nil_append]

/-- C2 on two subscriptions, the first with no nested server that parses:
both are kept, in order, the first with an empty server list. -/
theorem migrateServerFormat_two_subscriptions :
    appendSubscriptionsCalls (migrateServerFormat vmessOnlyEnv subscriptionStore).2 =
      [[{ Remarks := "first", Address := "https://a.example/sub", Status := "ok",
          Servers := [], Info := "" },
        { Remarks := "second", Address := "https://b.example/sub", Status := "ok",
          Servers := [{ ServerObj := "vmess://uuid@host:10086", Latency := "20ms" }],
          Info := "7 days" }]] :=
  (migrateServerFormat_subscription_batch vmessOnlyEnv subscriptionStore).2.2.2.trans
    (by decide)

end SchemaUpgrade

section LegacySearch

variable {Obj : Type}

theorem setConfigureCalls_append (a b : List (MigEvent Obj)) :
    setConfigureCalls (a ++ b) = setConfigureCalls a ++ setConfigureCalls b := by
  induction a with
  | nil => rfl
  | cons e rest ih => cases e <;> simp [setConfigureCalls, ih]

theorem migrate_of_migratesTo_none (env : LegacyEnv Obj) (s : Store Obj) (q : String)
    (hstat : env.stat q = true) (h : migratesTo env q = none) :
    (migrate env s q).ok = false ∧ (migrate env s q).store = s := by
  unfold migratesTo at h
  rw [if_pos hstat] at h
  unfold migrate
  cases hr : env.ReadFile q with
  | none => simp
  | some b =>
    rw [hr] at h
    dsimp only at h ⊢
    cases hu : env.Unmarshal b with
    | none => simp
    | some cfg =>
      rw [hu] at h
      dsimp only at h ⊢
      by_cases hf : env.setConfigureFails cfg = true
      · simp [hf]
      · simp [hf] at h

theorem migrate_of_migratesTo_some (env : LegacyEnv Obj) (s : Store Obj) (p : String)
    (cfg : Configure Obj) (h : migratesTo env p = some cfg) :
    env.stat p = true ∧ (migrate env s p).ok = true ∧
      (migrate env s p).store = SetConfigure s cfg ∧
      (migrate env s p).log = [MigEvent.info "Migrating json to nutsdb...", MigEvent.readFile p,
        MigEvent.setConfigure cfg, MigEvent.info "Migrating complete"] := by
  unfold migratesTo at h
  by_cases hstat : env.stat p = true
  · rw [if_pos hstat] at h
    refine ⟨hstat, ?_⟩
    unfold migrate
    cases hr : env.ReadFile p with
    | none => simp [hr] at h
    | some b =>
      rw [hr] at h
      dsimp only at h ⊢
      cases hu : env.Unmarshal b with
      | none => simp [hu] at h
      | some c =>
        rw [hu] at h
        dsimp only at h ⊢
        by_cases hf : env.setConfigureFails c = true
        · simp [hf] at h
        · simp only [hf, if_false] at h
          have hc : c = cfg := Option.some.inj h
          subst hc
          simp [hf]
  · rw [if_neg hstat] at h
    exact absurd h (by simp)

theorem legacySearch_skip_failed (env : LegacyEnv Obj) (s : Store Obj) (rest : List String)
    (pre : List String) :
    ∀ log : List (MigEvent Obj), (∀ q ∈ pre, migratesTo env q = none) →
      legacySearch env (pre ++ rest) s log =
        legacySearch env rest s (log ++ (pre.map (attemptLog env s)).flatten) := by
  induction pre with
  | nil => intro log _; simp
  | cons q qs ih =>
    intro log hpre
    have hq : migratesTo env q = none := hpre q (List.mem_cons_self _ _)
    have hqs : ∀ x ∈ qs, migratesTo env x = none := fun x hx => hpre x (List.mem_cons_of_mem _ hx)
    by_cases hstat : env.stat q = true
    · have hm := migrate_of_migratesTo_none env s q hstat hq
      rw [List.cons_append, legacySearch]
      simp only [hstat, if_true, hm.1, hm.2, Bool.false_eq_true, if_false]
      rw [ih _ hqs]
      simp [attemptLog, hstat, List.append_assoc]
    · have hstat2 : env.stat q = false := by simpa using hstat
      rw [List.cons_append, legacySearch]
      simp only [hstat2, Bool.false_eq_true, if_false]
      rw [ih _ hqs]
      simp [attemptLog, hstat2, List.append_assoc]

theorem migrate_from_ne_init (path : String) : "migrate from " ++ path ≠ "init DB" := by
  intro h
  have hd := congrArg String.data h
  rw [String.data_append] at hd
  have h0 := congrArg List.head? hd
  simp at h0

theorem init_not_mem_attemptLog (env : LegacyEnv Obj) (s : Store Obj) (path : String) :
    MigEvent.info "init DB" ∉ attemptLog env s path := by
  unfold attemptLog migrate
  have hne := migrate_from_ne_init path
  have hne2 : ¬ ("init DB" = "migrate from " ++ path) := fun h => hne h.symm
  by_cases hstat : env.stat path = true
  · simp only [hstat, if_true]
    cases env.ReadFile path with
    | none => simp [hne2]
    | some b =>
      dsimp only
      cases env.Unmarshal b with
      | none => simp [hne2]
      | some cfg =>
        dsimp only
        by_cases hf : env.setConfigureFails cfg = true <;> simp [hf, hne2]
  · simp [hstat]

/-- C3: legacy-JSON search of `initConfigure` on a store without
configuration.  When the candidate list is `pre ++ p :: post`, no path of
`pre` migrates successfully and `p` exists, is read, decoded to `cfg` and
written without error, then the store ends holding `cfg`, the search reports
success without exiting, the effects are exactly those of visiting the paths
of `pre` in order (each skipped after its failure) followed by those of `p`,
so no path of `post` is probed, read or migrated and the outcome is the same
for every `post`, the last configuration handed to `SetConfigure` is `cfg`,
and `initDBValue` does not run. -/
theorem initConfigureStore_first_valid_path (env : LegacyEnv Obj) (menv : MigrateEnv Obj)
    (s : Store Obj) (pre post : List String) (p : String) (cfg : Configure Obj)
    (habsent : IsConfigureNotExists s = true)
    (hpre : ∀ q ∈ pre, migratesTo env q = none)
    (hp : migratesTo env p = some cfg) :
    (initConfigureStore env menv (pre ++ p :: post) s).store.configure = some cfg ∧
    (initConfigureStore env menv (pre ++ p :: post) s).ok = true ∧
    (initConfigureStore env menv (pre ++ p :: post) s).exited = false ∧
    (initConfigureStore env menv (pre ++ p :: post) s).log =
      (pre.map (attemptLog env s)).flatten ++
        [MigEvent.stat p, MigEvent.info ("migrate from " ++ p),
          MigEvent.info "Migrating json to nutsdb...", MigEvent.readFile p,
          MigEvent.setConfigure cfg, MigEvent.info "Migrating complete"] ∧
    (setConfigureCalls (initConfigureStore env menv (pre ++ p :: post) s).log).getLast? =
      some cfg ∧
    MigEvent.info "init DB" ∉ (initConfigureStore env menv (pre ++ p :: post) s).log ∧
    (initConfigureStore env menv (pre ++ p :: post) s).log =
      (initConfigureStore env menv (pre ++ [p]) s).log := by
  have hm := migrate_of_migratesTo_some env s p cfg hp
  have key : ∀ rest : List String,
      legacySearch env (pre ++ p :: rest) s [] =
        { store := SetConfigure s cfg, ok := true, exited := false,
          log := (pre.map (attemptLog env s)).flatten ++
            [MigEvent.stat p, MigEvent.info ("migrate from " ++ p),
              MigEvent.info "Migrating json to nutsdb...", MigEvent.readFile p,
              MigEvent.setConfigure cfg, MigEvent.info "Migrating complete"] } := by
    intro rest
    rw [legacySearch_skip_failed env s (p :: rest) pre [] hpre]
    simp only [legacySearch, hm.1, if_true, hm.2.1, hm.2.2.1, hm.2.2.2, List.nil_append,
      List.append_assoc, List.cons_append]
  have full : ∀ rest : List String,
      initConfigureStore env menv (pre ++ p :: rest) s =
        { store := SetConfigure s cfg, ok := true, exited := false,
          log := (pre.map (attemptLog env s)).flatten ++
            [MigEvent.stat p, MigEvent.info ("migrate from " ++ p),
              MigEvent.info "Migrating json to nutsdb...", MigEvent.readFile p,
              MigEvent.setConfigure cfg, MigEvent.info "Migrating complete"] } := by
    intro rest
    unfold initConfigureStore
    simp only [habsent, if_true, key rest, Bool.not_true, Bool.false_eq_true, if_false]
  rw [full post, full []]
  refine ⟨rfl, rfl, rfl, rfl, ?_, ?_, rfl⟩
  · rw [setConfigureCalls_append]
    simp [setConfigureCalls]
  · intro hmem
    rcases List.mem_append.mp hmem with h | h
    · rcases List.mem_flatten.mp h with ⟨l, hl, hin⟩
      rcases List.mem_map.mp hl with ⟨q, _, rfl⟩
      exact init_not_mem_attemptLog env s q hin
    · have hne := migrate_from_ne_init p
      simp at h
      exact hne h.symm

/-- C3 on the candidate list of `initConfigure` when the first path is
missing, the second exists but does not decode and the third is valid. -/
theorem initConfigureStore_third_path :
    IsConfigureNotExists absentStore = true ∧
    migratesTo legacyFileEnv "/etc/v2ray/v2raya.json" = none ∧
    (initConfigureStore legacyFileEnv vmessOnlyEnv (camp "/root/.config/v2raya.json")
      absentStore).store.configure = some legacyConfigure ∧
    MigEvent.info "init DB" ∉ (initConfigureStore legacyFileEnv vmessOnlyEnv
      (camp "/root/.config/v2raya.json") absentStore).log :=
  have h := initConfigureStore_first_valid_path legacyFileEnv vmessOnlyEnv absentStore
    ["/root/.config/v2raya.json", "/etc/v2ray/v2raya.json"] [] "/etc/v2raya/v2raya.json"
    legacyConfigure (by decide) (by decide) (by decide)
  ⟨by decide, by decide, h.1, h.2.2.2.2.2.1⟩

end LegacySearch

section SchemaCurrent

variable {Obj : Type}

theorem migrateServerFormat_store (menv : MigrateEnv Obj) (c : Configure Obj)
    (hs : ∀ b, menv.appendServersFails b = false)
    (hsub : ∀ b, menv.appendSubscriptionsFails b = false) :
    (migrateServerFormat menv { configure := some c }).1 =
      { configure := some
          { Servers := c.Servers
            Subscriptions := c.Subscriptions
            ServersV2 := c.ServersV2 ++ c.Servers.filterMap (reconstruct menv)
            SubscriptionsV2 := c.SubscriptionsV2 ++
              c.Subscriptions.map (upgradeSubscription menv) } } := by
  have hb1 := migrateServersLoop_batch menv c.Servers [] []
  have hb2 := migrateSubscriptionsLoop_batch menv c.Subscriptions [] []
  simp only [List.nil_append] at hb1 hb2
  have hstore1 : (migrateServerFormatServers menv { configure := some c }).2.1 =
      { configure := some { c with
          ServersV2 := c.ServersV2 ++ c.Servers.filterMap (reconstruct menv) } } := by
    unfold migrateServerFormatServers
    simp only [GetServers, hb1, hs, Bool.false_eq_true, if_false]
    by_cases hnil : c.Servers.filterMap (reconstruct menv) = []
    · simp [hnil]
    · have hpos : 0 < (c.Servers.filterMap (reconstruct menv)).length :=
        List.length_pos.mpr hnil
      simp [hpos, AppendServers]
  unfold migrateServerFormat
  simp only [hstore1]
  unfold migrateServerFormatSubscriptions
  simp only [GetSubscriptions, hb2, hsub, Bool.false_eq_true, if_false]
  by_cases hnil : c.Subscriptions = []
  · simp [hnil]
  · have hpos : 0 < c.Subscriptions.length := List.length_pos.mpr hnil
    simp [hpos, AppendSubscriptions]

theorem migrate_shape (env : LegacyEnv Obj) (s : Store Obj) (p : String) :
    (appendServersCalls (migrate env s p).log = [] ∧
      appendSubscriptionsCalls (migrate env s p).log = []) ∧
    (((migrate env s p).ok = false ∧ (migrate env s p).store = s) ∨
      ∃ cfg, (migrate env s p).ok = true ∧ (migrate env s p).store.configure = some cfg ∧
        (setConfigureCalls (migrate env s p).log).getLast? = some cfg) := by
  unfold migrate
  cases env.ReadFile p with
  | none => simp [appendServersCalls, appendSubscriptionsCalls]
  | some b =>
    dsimp only
    cases env.Unmarshal b with
    | none => simp [appendServersCalls, appendSubscriptionsCalls]
    | some cfg =>
      dsimp only
      by_cases hf : env.setConfigureFails cfg = true
      · simp [hf, appendServersCalls, appendSubscriptionsCalls]
      · simp [hf, appendServersCalls, appendSubscriptionsCalls, setConfigureCalls, SetConfigure]

theorem legacySearch_shape (env : LegacyEnv Obj) (paths : List String) :
    ∀ (s : Store Obj) (log : List (MigEvent Obj)),
      (legacySearch env paths s log).exited = false ∧
      appendServersCalls (legacySearch env paths s log).log = appendServersCalls log ∧
      appendSubscriptionsCalls (legacySearch env paths s log).log =
        appendSubscriptionsCalls log ∧
      ((legacySearch env paths s log).ok = true →
        (legacySearch env paths s log).store.configure =
          (setConfigureCalls (legacySearch env paths s log).log).getLast?) ∧
      ((legacySearch env paths s log).ok = false → (legacySearch env paths s log).store = s) := by
  induction paths with
  | nil => intro s log; simp [legacySearch]
  | cons q qs ih =>
    intro s log
    rw [legacySearch]
    by_cases hstat : env.stat q = true
    · simp only [hstat, if_true]
      have hm := migrate_shape env s q
      by_cases hok : (migrate env s q).ok = true
      · simp only [hok, if_true]
        rcases hm.2 with ⟨hf, _⟩ | ⟨cfg, _, hst, hlast⟩
        · rw [hok] at hf; exact absurd hf (by simp)
        · refine ⟨trivial, ?_, ?_, ?_, ?_⟩
          · simp [appendServersCalls_append, hm.1.1, appendServersCalls]
          · simp [appendSubscriptionsCalls_append, hm.1.2, appendSubscriptionsCalls]
          · intro _
            rw [hst, setConfigureCalls_append, List.getLast?_append, hlast]
            rfl
          · intro h; exact absurd h (by simp)
      · have hok2 : (migrate env s q).ok = false := by simpa using hok
        simp only [hok2, Bool.false_eq_true, if_false]
        rcases hm.2 with ⟨_, hst⟩ | ⟨cfg, ht, _, _⟩
        · rw [hst]
          have := ih s (log ++ [MigEvent.stat q, MigEvent.info ("migrate from " ++ q)] ++
            (migrate env s q).log)
          refine ⟨this.1, ?_, ?_, this.2.2.2.1, this.2.2.2.2⟩
          · rw [this.2.1]
            simp [appendServersCalls_append, hm.1.1, appendServersCalls]
          · rw [this.2.2.1]
            simp [appendSubscriptionsCalls_append, hm.1.2, appendSubscriptionsCalls]
        · rw [hok2] at ht; exact absurd ht (by simp)
    · have hstat2 : env.stat q = false := by simpa using hstat
      simp only [hstat2, Bool.false_eq_true, if_false]
      have := ih s (log ++ [MigEvent.stat q])
      refine ⟨this.1, ?_, ?_, this.2.2.2.1, this.2.2.2.2⟩
      · rw [this.2.1]
        simp [appendServersCalls_append, appendServersCalls]
      · rw [this.2.2.1]
        simp [appendSubscriptionsCalls_append, appendSubscriptionsCalls]

theorem schemaCurrent_after_upgrade (menv : MigrateEnv Obj) (c : Configure Obj)
    (hs : ∀ b, menv.appendServersFails b = false)
    (hsub : ∀ b, menv.appendSubscriptionsFails b = false)
    (hneed : needsServerFormatMigration ({ configure := some c } : Store Obj) = true) :
    schemaCurrent (migrateServerFormat menv { configure := some c }).1 = true ↔
      (c.Subscriptions ≠ [] ∨ ∃ raw ∈ c.Servers, (reconstruct menv raw).isSome = true) := by
  rw [migrateServerFormat_store menv c hs hsub]
  simp only [needsServerFormatMigration, GetServers, GetSubscriptions, GetServersV2,
    GetSubscriptionsV2, Bool.and_eq_true, decide_eq_true_eq] at hneed
  obtain ⟨hv1, hv2⟩ := hneed
  have h1 : c.ServersV2 = [] := List.length_eq_zero.mp (by omega)
  have h2 : c.SubscriptionsV2 = [] := List.length_eq_zero.mp (by omega)
  have hfm : (c.Servers.filterMap (reconstruct menv)).length = 0 ↔
      ¬ ∃ raw ∈ c.Servers, (reconstruct menv raw).isSome = true := by
    rw [List.length_eq_zero, List.filterMap_eq_nil_iff]
    constructor
    · rintro h ⟨raw, hmem, hsome⟩
      rw [h raw hmem] at hsome
      exact absurd hsome (by simp)
    · intro h raw hmem
      cases hr : reconstruct menv raw with
      | none => rfl
      | some v => exact absurd ⟨raw, hmem, by simp [hr]⟩ h
  have hsl : c.Subscriptions.length = 0 ↔ c.Subscriptions = [] := List.length_eq_zero
  simp only [schemaCurrent, needsServerFormatMigration, GetServers, GetSubscriptions,
    GetServersV2, GetSubscriptionsV2, h1, h2, List.nil_append, List.length_map,
    Bool.not_eq_true', Bool.and_eq_false_iff, decide_eq_false_iff_not]
  constructor
  · rintro (h | h)
    · exact absurd hv1 h
    · by_cases hsubs : c.Subscriptions = []
      · right
        by_contra hno
        have := hfm.mpr hno
        have := hsl.mpr hsubs
        omega
      · exact Or.inl hsubs
  · rintro (h | h)
    · right
      have : c.Subscriptions.length ≠ 0 := fun h0 => h (hsl.mp h0)
      omega
    · right
      have : (c.Servers.filterMap (reconstruct menv)).length ≠ 0 := fun h0 => hfm.mp h0 h
      omega

/-- C4 (as amended): with all store appends succeeding, a store that has a
configuration is schema-current after the store part of `initConfigure`
exactly when it was schema-current before, or it has at least one v1
subscription, or at least one of its v1 servers parses; a store without
configuration gets the legacy or default configuration written and the schema
upgrade is not run in that pass: no append is performed and, unless the
default write is fatal, the store holds the last configuration handed to
`SetConfigure`. -/
theorem initConfigureStore_schema_current_iff (env : LegacyEnv Obj) (menv : MigrateEnv Obj)
    (paths : List String) (s : Store Obj)
    (hs : ∀ b, menv.appendServersFails b = false)
    (hsub : ∀ b, menv.appendSubscriptionsFails b = false) :
    (IsConfigureNotExists s = false →
      (schemaCurrent (initConfigureStore env menv paths s).store = true ↔
        (schemaCurrent s = true ∨ GetSubscriptions s ≠ [] ∨
          ∃ raw ∈ GetServers s, (reconstruct menv raw).isSome = true))) ∧
    (IsConfigureNotExists s = true →
      appendServersCalls (initConfigureStore env menv paths s).log = [] ∧
      appendSubscriptionsCalls (initConfigureStore env menv paths s).log = [] ∧
      ((initConfigureStore env menv paths s).exited = false →
        (initConfigureStore env menv paths s).store.configure =
          (setConfigureCalls (initConfigureStore env menv paths s).log).getLast?)) := by
  constructor
  · intro hpresent
    cases s with
    | mk cfg =>
      cases cfg with
      | none => simp [IsConfigureNotExists] at hpresent
      | some c =>
        unfold initConfigureStore
        simp only [hpresent, Bool.false_eq_true, if_false]
        by_cases hneed : needsServerFormatMigration ({ configure := some c } : Store Obj) = true
        · simp only [hneed, if_true]
          rw [schemaCurrent_after_upgrade menv c hs hsub hneed]
          simp [schemaCurrent, hneed, GetSubscriptions, GetServers]
        · simp only [hneed, if_false]
          simp [schemaCurrent, hneed]
  · intro habsent
    have hl := legacySearch_shape env paths s []
    unfold initConfigureStore
    simp only [habsent, if_true]
    by_cases hok : (legacySearch env paths s []).ok = true
    · simp only [hok, Bool.not_true, Bool.false_eq_true, if_false]
      refine ⟨?_, ?_, fun _ => hl.2.2.2.1 hok⟩
      · rw [hl.2.1]; rfl
      · rw [hl.2.2.1]; rfl
    · have hok2 : (legacySearch env paths s []).ok = false := by simpa using hok
      simp only [hok2, Bool.not_false, if_true]
      refine ⟨?_, ?_, ?_⟩
      · rw [appendServersCalls_append, hl.2.1]
        unfold initDBValue
        split_ifs <;> simp [appendServersCalls]
      · rw [appendSubscriptionsCalls_append, hl.2.2.1]
        unfold initDBValue
        split_ifs <;> simp [appendSubscriptionsCalls]
      · unfold initDBValue
        by_cases hf : env.setConfigureFails env.New = true
        · simp [hf]
        · simp [hf, setConfigureCalls_append, setConfigureCalls, SetConfigure]

/-- C4 (as amended) on a store with one v1 server that parses and one that
does not: the upgrade leaves it schema-current. -/
theorem initConfigureStore_mixed_store :
    IsConfigureNotExists mixedStore = false ∧
    schemaCurrent mixedStore = false ∧
    schemaCurrent (initConfigureStore legacyFileEnv vmessOnlyEnv
      (camp "/root/.config/v2raya.json") mixedStore).store = true :=
  have h := initConfigureStore_schema_current_iff legacyFileEnv vmessOnlyEnv
    (camp "/root/.config/v2raya.json") mixedStore (fun _ => rfl) (fun _ => rfl)
  ⟨by decide, by decide,
    (h.1 (by decide)).mpr (Or.inr (Or.inr ⟨untaggedServer, by decide, by decide⟩))⟩

end SchemaCurrent

/-- C4: two stores that are not schema-current after the store part of
`initConfigure` although every store write succeeds: a v1-only store whose
single server does not parse, and an absent store populated from a legacy
JSON file that holds a v1 server. -/
theorem initConfigureStore_leaves_v1_only :
    (needsServerFormatMigration v1OnlyStore = true ∧
      (initConfigureStore legacyFileEnv vmessOnlyEnv (camp "/root/.config/v2raya.json")
        v1OnlyStore).exited = false ∧
      schemaCurrent (initConfigureStore legacyFileEnv vmessOnlyEnv
        (camp "/root/.config/v2raya.json") v1OnlyStore).store = false) ∧
    (IsConfigureNotExists absentStore = true ∧
      (initConfigureStore legacyFileEnv vmessOnlyEnv (camp "/root/.config/v2raya.json")
        absentStore).exited = false ∧
      (initConfigureStore legacyFileEnv vmessOnlyEnv (camp "/root/.config/v2raya.json")
        absentStore).store.configure = some legacyConfigure ∧
      schemaCurrent (initConfigureStore legacyFileEnv vmessOnlyEnv
        (camp "/root/.config/v2raya.json") absentStore).store = false) := by
  decide

section ReadinessGate

theorem waitNetwork_skip_failures (fails : List LookupResult) (rest : List LookupResult) :
    ∀ log : List GateEvent, (∀ r ∈ fails, lookupSucceeded r = false) →
      waitNetwork (fails ++ rest) log =
        waitNetwork rest (log ++ (List.replicate fails.length waitingRound).flatten) := by
  induction fails with
  | nil => intro log _; simp
  | cons r rs ih =>
    intro log hfail
    have hr : lookupSucceeded r = false := hfail r (List.mem_cons_self _ _)
    have hrs : ∀ x ∈ rs, lookupSucceeded x = false :=
      fun x hx => hfail x (List.mem_cons_of_mem _ hx)
    rw [List.cons_append, waitNetwork]
    simp only [hr, Bool.false_eq_true, if_false]
    rw [ih _ hrs]
    simp [List.replicate_succ, waitingRound, List.append_assoc]

theorem waitNetwork_all_fail (fails : List LookupResult) :
    ∀ log : List GateEvent, (∀ r ∈ fails, lookupSucceeded r = false) →
      waitNetwork fails log = none := by
  intro log hfail
  have h := waitNetwork_skip_failures fails [] log hfail
  rw [List.append_nil] at h
  rw [h, waitNetwork]

theorem count_waitingRounds (e : GateEvent) (k : Nat) :
    ((List.replicate k waitingRound).flatten).count e = k * waitingRound.count e := by
  induction k with
  | zero => simp
  | succ n ih =>
    rw [List.replicate_succ, List.flatten_cons, List.count_append, ih]
    ring

/-- C9: when the first `k` resolution attempts fail and attempt `k+1`
succeeds, the readiness loop returns, after exactly `k+1` attempts, with `k`
rounds of (attempt, waiting notice, 5-second sleep) followed by the
successful attempt and one connected notice; it does not return on any
prefix of the failing attempts. -/
theorem waitNetwork_returns_after_first_success (fails : List LookupResult)
    (ok : LookupResult) (rest : List LookupResult)
    (hfail : ∀ r ∈ fails, lookupSucceeded r = false) (hok : lookupSucceeded ok = true) :
    waitNetwork (fails ++ ok :: rest) [] = some (gateTrace fails.length) ∧
    (gateTrace fails.length).count (GateEvent.lookupHost "apple.com") = fails.length + 1 ∧
    (gateTrace fails.length).count (GateEvent.alert "waiting for network connected") =
      fails.length ∧
    (gateTrace fails.length).count (GateEvent.sleep 5) = fails.length ∧
    (gateTrace fails.length).count (GateEvent.alert "network is connected") = 1 ∧
    (gateTrace fails.length).getLast? = some (GateEvent.alert "network is connected") ∧
    ∀ j : Nat, waitNetwork (fails.take j) [] = none := by
  refine ⟨?_, ?_, ?_, ?_, ?_, ?_, ?_⟩
  · rw [waitNetwork_skip_failures fails (ok :: rest) [] hfail, waitNetwork]
    simp [hok, gateTrace]
  · unfold gateTrace
    rw [List.count_append, count_waitingRounds]
    have h1 : waitingRound.count (GateEvent.lookupHost "apple.com") = 1 := by decide
    have h2 : [GateEvent.lookupHost "apple.com", GateEvent.alert "network is connected"].count
        (GateEvent.lookupHost "apple.com") = 1 := by decide
    rw [h1, h2]; ring
  · unfold gateTrace
    rw [List.count_append, count_waitingRounds]
    have h1 : waitingRound.count (GateEvent.alert "waiting for network connected") = 1 := by
      decide
    have h2 : [GateEvent.lookupHost "apple.com", GateEvent.alert "network is connected"].count
        (GateEvent.alert "waiting for network connected") = 0 := by decide
    rw [h1, h2]; ring
  · unfold gateTrace
    rw [List.count_append, count_waitingRounds]
    have h1 : waitingRound.count (GateEvent.sleep 5) = 1 := by decide
    have h2 : [GateEvent.lookupHost "apple.com", GateEvent.alert "network is connected"].count
        (GateEvent.sleep 5) = 0 := by decide
    rw [h1, h2]; ring
  · unfold gateTrace
    rw [List.count_append, count_waitingRounds]
    have h1 : waitingRound.count (GateEvent.alert "network is connected") = 0 := by decide
    have h2 : [GateEvent.lookupHost "apple.com", GateEvent.alert "network is connected"].count
        (GateEvent.alert "network is connected") = 1 := by decide
    rw [h1, h2]; ring
  · unfold gateTrace
    rw [List.getLast?_append]
    rfl
  · intro j
    exact waitNetwork_all_fail (fails.take j) []
      (fun r hr => hfail r (List.mem_of_mem_take hr))

/-- C9 at a resolver that fails twice and then succeeds: the loop returns
after the third attempt with two waiting notices. -/
theorem waitNetwork_two_failures :
    (∀ r ∈ twoFailures, lookupSucceeded r = false) ∧ lookupSucceeded resolved = true ∧
    waitNetwork (twoFailures ++ resolved :: []) [] = some (gateTrace 2) ∧
    (gateTrace 2).count (GateEvent.lookupHost "apple.com") = 3 ∧
    (gateTrace 2).count (GateEvent.alert "waiting for network connected") = 2 :=
  have h := waitNetwork_returns_after_first_success twoFailures resolved []
    (by decide) (by decide)
  ⟨by decide, by decide, h.1, h.2.1, h.2.2.1⟩

end ReadinessGate

section Assets

theorem attempted_append (repo : String) (a b : List AssetEvent) :
    attempted repo (a ++ b) = (attempted repo a || attempted repo b) := by
  unfold attempted
  induction a with
  | nil => simp
  | cons e rest ih => simp [List.contains_cons, ih, Bool.or_assoc]

theorem attempted_dld (env : AssetEnv) (repo filename localname : String) :
    attempted repo (dld env repo filename localname).2 = true := by
  have hmem : ∀ rest : List AssetEvent,
      attempted repo ([AssetEvent.warn ("installing " ++ filename),
        AssetEvent.httpGet (tagsURL repo)] ++ rest) = true := by
    intro rest
    simp [attempted, List.contains_cons]
  unfold dld
  cases env.httpGet (tagsURL repo) with
  | error e => exact hmem []
  | ok body =>
    dsimp only
    cases env.readAll body with
    | error e => exact hmem _
    | ok b =>
      dsimp only
      cases env.down (downloadURL repo (env.firstTagName b) filename)
          (env.join env.locationAsset filename) with
      | some e => simp only [List.append_assoc]; exact hmem _
      | none =>
        dsimp only
        cases env.chmod (env.join env.locationAsset filename) with
        | some e => simp only [List.append_assoc]; exact hmem _
        | none => simp only [List.append_assoc]; exact hmem _

theorem attempted_dldAndWarn (env : AssetEnv) (repo filename localname : String) :
    attempted repo (dldAndWarn env repo filename localname) = true := by
  unfold dldAndWarn
  have h := attempted_dld env repo filename localname
  dsimp only
  cases hr : (dld env repo filename localname).1 with
  | none => exact h
  | some e => simp only [attempted_append, h, Bool.true_or]

/-- C10 (as amended): provisioning of either asset is started exactly when
the v2ray binary is found and at least one of the two local files is missing;
in that case both are fetched, an already present file included, and the
domain-list asset is attempted whatever happens while provisioning the
IP-range asset; otherwise neither is fetched and nothing else happens. -/
theorem provisionAssets_attempts (env : AssetEnv) :
    attempted "v2rayA/dist-geoip" (provisionAssets env) =
      (env.v2rayBinFound && (!env.geoipExists || !env.geositeExists)) ∧
    attempted "v2rayA/dist-domain-list-community" (provisionAssets env) =
      (env.v2rayBinFound && (!env.geoipExists || !env.geositeExists)) ∧
    ((env.v2rayBinFound && (!env.geoipExists || !env.geositeExists)) = false →
      provisionAssets env = []) := by
  unfold provisionAssets
  by_cases hbin : env.v2rayBinFound = true
  · by_cases hmiss : (!env.geoipExists || !env.geositeExists) = true
    · simp only [hbin, hmiss, if_true, attempted_append, attempted_dldAndWarn, Bool.true_or,
        Bool.or_true, Bool.and_self]
      simp
    · have hmiss2 : (!env.geoipExists || !env.geositeExists) = false := by simpa using hmiss
      simp only [hbin, hmiss2, if_true, Bool.false_eq_true, if_false]
      simp [attempted]
  · have hbin2 : env.v2rayBinFound = false := by simpa using hbin
    simp only [hbin2, Bool.false_eq_true, if_false]
    simp [attempted]

/-- C10 (as amended) when the tag listing of the IP-range repository cannot
be fetched: the domain-list asset is attempted all the same; and when both
files are present nothing is fetched. -/
theorem provisionAssets_examples :
    (dld geoipFailsEnv "v2rayA/dist-geoip" "geoip.dat" "geoip.dat").1 = some "timeout" ∧
    attempted "v2rayA/dist-domain-list-community" (provisionAssets geoipFailsEnv) = true ∧
    provisionAssets bothPresentEnv = [] :=
  have h := provisionAssets_attempts geoipFailsEnv
  have g := provisionAssets_attempts bothPresentEnv
  ⟨by decide, h.2.1.trans (by decide), g.2.2 (by decide)⟩

end Assets

/-- C10: with the v2ray binary found, the IP-range file present and the
domain-list file missing, the IP-range asset is fetched, downloaded and
renamed over the present file all the same; and with the binary not found a
missing IP-range file is not fetched. -/
theorem provisionAssets_refetches_present_asset :
    (geoipPresentEnv.geoipExists = true ∧
      attempted "v2rayA/dist-geoip" (provisionAssets geoipPresentEnv) = true ∧
      AssetEvent.rename "/usr/share/v2ray/geoip.dat" "/usr/share/v2ray/geoip.dat" ∈
        provisionAssets geoipPresentEnv) ∧
    (noBinaryEnv.geoipExists = false ∧
      attempted "v2rayA/dist-geoip" (provisionAssets noBinaryEnv) = false) := by
  decide

section Scheduler

theorem sentinelPeriod_eq : sentinelPeriod = 3153600000000000000 := by
  decide

theorem hoursDuration_eq (h : Int) (h1 : 1 ≤ h) (hrep : h * Hour < 2 ^ 63) :
    hoursDuration h = h * Hour := by
  unfold hoursDuration wrapInt64
  unfold Hour at hrep ⊢
  have e1 : (h + 2 ^ 63) % 2 ^ 64 - 2 ^ 63 = h := by omega
  rw [e1]
  omega

/-- The scheduler state after the rule-list block, when its `Reset` does not panic. -/
theorem checkUpdateGFWList_ok (setting : Setting) (s : Sched) (hs : s.panicked = false)
    (hv : setting.GFWListAutoUpdateMode = AutoUpdateMode.AutoUpdateAtIntervals →
      0 < hoursDuration setting.GFWListAutoUpdateIntervalHour) :
    checkUpdateGFWList setting s =
      { TickerUpdateGFWList :=
          if setting.GFWListAutoUpdateMode = AutoUpdateMode.AutoUpdateAtIntervals then
            hoursDuration setting.GFWListAutoUpdateIntervalHour
          else s.TickerUpdateGFWList
        TickerUpdateSubscription := s.TickerUpdateSubscription
        launched :=
          if (setting.GFWListAutoUpdateMode ≠ AutoUpdateMode.Disabled ∨
              setting.Transparent = TransparentMode.TransparentGfwlist) ∧
              setting.RulePortMode = RulePortMode.GfwlistMode then
            s.launched ++ [Task.checkAndUpdateGFWList]
          else s.launched
        panicked := false } := by
  cases s with
  | mk g sub l pk =>
    simp only at hs
    subst hs
    unfold checkUpdateGFWList
    cases hm : setting.GFWListAutoUpdateMode with
    | Disabled =>
      cases ht : setting.Transparent <;> cases hr : setting.RulePortMode <;>
        simp [andThen, go]
    | AutoUpdate =>
      cases hr : setting.RulePortMode <;> simp [andThen, go]
    | AutoUpdateAtIntervals =>
      have hpos := hv hm
      have hnot : ¬ hoursDuration setting.GFWListAutoUpdateIntervalHour ≤ 0 := not_le.mpr hpos
      cases hr : setting.RulePortMode <;> simp [andThen, go, resetGFWList, hnot]

/-- The scheduler state after the subscription block, when its `Reset` does not panic. -/
theorem checkUpdateSubscription_ok (setting : Setting) (s : Sched) (hs : s.panicked = false)
    (hv : setting.SubscriptionAutoUpdateMode = AutoUpdateMode.AutoUpdateAtIntervals →
      0 < hoursDuration setting.SubscriptionAutoUpdateIntervalHour) :
    checkUpdateSubscription setting s =
      { TickerUpdateGFWList := s.TickerUpdateGFWList
        TickerUpdateSubscription :=
          if setting.SubscriptionAutoUpdateMode = AutoUpdateMode.AutoUpdateAtIntervals then
            hoursDuration setting.SubscriptionAutoUpdateIntervalHour
          else s.TickerUpdateSubscription
        launched :=
          if setting.SubscriptionAutoUpdateMode ≠ AutoUpdateMode.Disabled then
            s.launched ++ [Task.updateSubscriptions]
          else s.launched
        panicked := false } := by
  cases s with
  | mk g sub l pk =>
    simp only at hs
    subst hs
    unfold checkUpdateSubscription
    cases hm : setting.SubscriptionAutoUpdateMode with
    | Disabled => simp
    | AutoUpdate => simp [andThen, go]
    | AutoUpdateAtIntervals =>
      have hpos := hv hm
      have hnot : ¬ hoursDuration setting.SubscriptionAutoUpdateIntervalHour ≤ 0 :=
        not_le.mpr hpos
      simp [andThen, go, resetSubscription, hnot]

/-- The subscription block leaves the rule-list ticker alone, panic or not. -/
theorem checkUpdateSubscription_gfw (setting : Setting) (s : Sched) :
    (checkUpdateSubscription setting s).TickerUpdateGFWList = s.TickerUpdateGFWList := by
  cases s with
  | mk g sub l pk =>
    unfold checkUpdateSubscription resetSubscription andThen go
    cases pk <;> dsimp only <;> split_ifs <;> simp_all

/-- The subscription ticker after the subscription block, panic or not. -/
theorem checkUpdateSubscription_sub (setting : Setting) (s : Sched) :
    (checkUpdateSubscription setting s).TickerUpdateSubscription =
      if setting.SubscriptionAutoUpdateMode = AutoUpdateMode.AutoUpdateAtIntervals ∧
          0 < hoursDuration setting.SubscriptionAutoUpdateIntervalHour then
        hoursDuration setting.SubscriptionAutoUpdateIntervalHour
      else s.TickerUpdateSubscription := by
  cases s with
  | mk g sub l pk =>
    unfold checkUpdateSubscription resetSubscription andThen go
    cases pk <;> dsimp only <;> split_ifs <;> simp_all <;> omega

theorem andThen_go_timers (s : Sched) (t : Task) :
    (andThen s (go t)).TickerUpdateGFWList = s.TickerUpdateGFWList ∧
    (andThen s (go t)).TickerUpdateSubscription = s.TickerUpdateSubscription := by
  unfold andThen go
  split_ifs <;> exact ⟨rfl, rfl⟩

/-- C7: for every Settings record whose rule-list mode is fixed-interval with
an interval of `h` hours, `h` at least 1 and `h` hours representable in 64
bits of nanoseconds, `checkUpdate` leaves the rule-list ticker at exactly `h`
hours; the subscription ticker ends at a value fixed by the subscription mode
and interval alone: the sentinel period (100 years) unless the subscription
mode is fixed-interval, and then its own interval (or the sentinel if that
interval is not a positive duration). -/
theorem checkUpdate_rule_list_interval (setting : Setting) (h : Int)
    (hmode : setting.GFWListAutoUpdateMode = AutoUpdateMode.AutoUpdateAtIntervals)
    (hint : setting.GFWListAutoUpdateIntervalHour = h)
    (h1 : 1 ≤ h) (hrep : h * Hour < 2 ^ 63) :
    (checkUpdate setting).TickerUpdateGFWList = h * Hour ∧
    (checkUpdate setting).TickerUpdateSubscription =
      (if setting.SubscriptionAutoUpdateMode = AutoUpdateMode.AutoUpdateAtIntervals ∧
          0 < hoursDuration setting.SubscriptionAutoUpdateIntervalHour then
        hoursDuration setting.SubscriptionAutoUpdateIntervalHour
      else sentinelPeriod) ∧
    (setting.SubscriptionAutoUpdateMode ≠ AutoUpdateMode.AutoUpdateAtIntervals →
      (checkUpdate setting).TickerUpdateSubscription = 100 * 365 * 24 * Hour) := by
  have hd : hoursDuration setting.GFWListAutoUpdateIntervalHour = h * Hour := by
    rw [hint]; exact hoursDuration_eq h h1 hrep
  have hpos : 0 < hoursDuration setting.GFWListAutoUpdateIntervalHour := by
    rw [hd]; unfold Hour; omega
  have hg := checkUpdateGFWList_ok setting initUpdatingTicker rfl (fun _ => hpos)
  have hstep1 : andThen initUpdatingTicker (checkUpdateGFWList setting) =
      checkUpdateGFWList setting initUpdatingTicker := by
    simp [andThen, initUpdatingTicker]
  have hnp : (checkUpdateGFWList setting initUpdatingTicker).panicked = false := by
    rw [hg]
  have hstep2 : andThen (checkUpdateGFWList setting initUpdatingTicker)
      (checkUpdateSubscription setting) =
      checkUpdateSubscription setting (checkUpdateGFWList setting initUpdatingTicker) := by
    simp [andThen, hnp]
  have hsubt : (checkUpdate setting).TickerUpdateSubscription =
      (if setting.SubscriptionAutoUpdateMode = AutoUpdateMode.AutoUpdateAtIntervals ∧
          0 < hoursDuration setting.SubscriptionAutoUpdateIntervalHour then
        hoursDuration setting.SubscriptionAutoUpdateIntervalHour
      else sentinelPeriod) := by
    unfold checkUpdate
    rw [(andThen_go_timers _ _).2, hstep1, hstep2, checkUpdateSubscription_sub, hg]
    simp [initUpdatingTicker]
  refine ⟨?_, hsubt, ?_⟩
  · unfold checkUpdate
    rw [(andThen_go_timers _ _).1, hstep1, hstep2, checkUpdateSubscription_gfw, hg]
    simp [hmode, hd]
  · intro hne
    rw [hsubt, sentinelPeriod_eq]
    simp [hne, Hour]

/-- C7 at "fixed interval, 6 hours": the rule-list ticker is set to 6 hours
and the subscription ticker stays at the sentinel period. -/
theorem checkUpdate_six_hours :
    (checkUpdate sixHourSetting).TickerUpdateGFWList = 6 * Hour ∧
    (checkUpdate sixHourSetting).TickerUpdateSubscription = 100 * 365 * 24 * Hour :=
  have h := checkUpdate_rule_list_interval sixHourSetting 6 rfl rfl (by decide) (by decide)
  ⟨h.1, h.2.2 (by decide)⟩

/-- C8 (as amended): when the intervals of the fixed-interval subjects are
positive durations, `checkUpdate` completes without panic and, for each
subject, the ticker is reset to the subject's interval exactly when its mode
is fixed-interval and is left at the sentinel period under "on every start"
and "disabled"; one subscription refresh is launched exactly when the
subscription mode is not disabled; one rule-list refresh is launched exactly
when the rule-list mode is not disabled or the transparent mode follows the
GFW list, and moreover the rule-port mode is the GFW list. -/
theorem checkUpdate_start_up_modes (setting : Setting) (hv : intervalsValid setting) :
    (checkUpdate setting).panicked = false ∧
    (checkUpdate setting).TickerUpdateGFWList =
      (if setting.GFWListAutoUpdateMode = AutoUpdateMode.AutoUpdateAtIntervals then
        hoursDuration setting.GFWListAutoUpdateIntervalHour
      else sentinelPeriod) ∧
    (checkUpdate setting).TickerUpdateSubscription =
      (if setting.SubscriptionAutoUpdateMode = AutoUpdateMode.AutoUpdateAtIntervals then
        hoursDuration setting.SubscriptionAutoUpdateIntervalHour
      else sentinelPeriod) ∧
    (checkUpdate setting).launched.count Task.updateSubscriptions =
      (if setting.SubscriptionAutoUpdateMode = AutoUpdateMode.Disabled then 0 else 1) ∧
    (checkUpdate setting).launched.count Task.checkAndUpdateGFWList =
      (if (setting.GFWListAutoUpdateMode ≠ AutoUpdateMode.Disabled ∨
          setting.Transparent = TransparentMode.TransparentGfwlist) ∧
          setting.RulePortMode = RulePortMode.GfwlistMode then 1 else 0) := by
  have hg := checkUpdateGFWList_ok setting initUpdatingTicker rfl hv.1
  have hstep1 : andThen initUpdatingTicker (checkUpdateGFWList setting) =
      checkUpdateGFWList setting initUpdatingTicker := by
    simp [andThen, initUpdatingTicker]
  have hnp : (checkUpdateGFWList setting initUpdatingTicker).panicked = false := by
    rw [hg]
  have hstep2 : andThen (checkUpdateGFWList setting initUpdatingTicker)
      (checkUpdateSubscription setting) =
      checkUpdateSubscription setting (checkUpdateGFWList setting initUpdatingTicker) := by
    simp [andThen, hnp]
  have hsb := checkUpdateSubscription_ok setting
    (checkUpdateGFWList setting initUpdatingTicker) hnp hv.2
  have hnp2 : (checkUpdateSubscription setting
      (checkUpdateGFWList setting initUpdatingTicker)).panicked = false := by
    rw [hsb]
  have hall : checkUpdate setting =
      go Task.versionCheckLoop (checkUpdateSubscription setting
        (checkUpdateGFWList setting initUpdatingTicker)) := by
    unfold checkUpdate
    rw [hstep1, hstep2]
    simp [andThen, hnp2]
  rw [hall, hsb, hg]
  clear hall hsb hg hstep1 hstep2 hnp hnp2 hv
  refine ⟨rfl, rfl, rfl, ?_, ?_⟩
  · simp only [go, initUpdatingTicker]
    split_ifs <;> simp_all [List.count_cons, List.count_append]
  · simp only [go, initUpdatingTicker]
    split_ifs <;> simp_all [List.count_cons, List.count_append]

/-- C8 at a record with both subjects on "update on every start" and the
rule port following the GFW list. -/
theorem checkUpdate_every_start :
    intervalsValid everyStartSetting ∧
    (checkUpdate everyStartSetting).TickerUpdateGFWList = sentinelPeriod ∧
    (checkUpdate everyStartSetting).TickerUpdateSubscription = sentinelPeriod ∧
    (checkUpdate everyStartSetting).launched.count Task.updateSubscriptions = 1 ∧
    (checkUpdate everyStartSetting).launched.count Task.checkAndUpdateGFWList = 1 :=
  have h := checkUpdate_start_up_modes everyStartSetting (by decide)
  ⟨by decide, h.2.1, h.2.2.1, h.2.2.2.1, h.2.2.2.2⟩

/-- C8: a rule-list mode "update on every start" that launches no rule-list
refresh because the rule port does not follow the GFW list; two records with
the same disabled rule-list mode and interval of which one launches a
rule-list refresh and the other does not; and a record whose subscriptions
are on "update on every start" but get no refresh because the rule-list
`Reset` panics on a 0-hour interval. -/
theorem checkUpdate_rule_list_refresh_gated :
    (everyStartWhitelistSetting.GFWListAutoUpdateMode = AutoUpdateMode.AutoUpdate ∧
      (checkUpdate everyStartWhitelistSetting).panicked = false ∧
      (checkUpdate everyStartWhitelistSetting).launched.count Task.checkAndUpdateGFWList = 0) ∧
    (disabledGfwlistSetting.GFWListAutoUpdateMode = disabledSetting.GFWListAutoUpdateMode ∧
      disabledGfwlistSetting.GFWListAutoUpdateIntervalHour =
        disabledSetting.GFWListAutoUpdateIntervalHour ∧
      (checkUpdate disabledGfwlistSetting).launched.count Task.checkAndUpdateGFWList = 1 ∧
      (checkUpdate disabledSetting).launched.count Task.checkAndUpdateGFWList = 0) ∧
    (zeroIntervalSetting.SubscriptionAutoUpdateMode = AutoUpdateMode.AutoUpdate ∧
      (checkUpdate zeroIntervalSetting).panicked = true ∧
      (checkUpdate zeroIntervalSetting).launched.count Task.updateSubscriptions = 0) := by
  decide

end Scheduler

section Lifecycle

/-- C5 (as amended): when the first value received is nil (the serving
subsystem returned nil, or a termination signal arrived) the shutdown steps
run exactly once, in the order stop transparent proxy, stop process manager,
close the store, the fatal-log path is not taken and `run` returns nil; when
it is a non-nil serving error the fatal log comes before any shutdown step,
and with `log.Fatal` ending the process no shutdown step runs at all. -/
theorem run_shutdown (fatalExits running : Bool) (updateErr : Option String) (ev : FirstEvent) :
    (sentOnErrch ev = none →
      shutdownSteps (run fatalExits running updateErr ev).1 = shutdownSequence ∧
      fatalTaken (run fatalExits running updateErr ev).1 = false ∧
      (run fatalExits running updateErr ev).2 = RunOutcome.returnedNil) ∧
    (∀ e : String, ev = FirstEvent.servingError e →
      fatalTaken (beforeShutdown (run fatalExits running updateErr ev).1) = true ∧
      (fatalExits = true →
        shutdownSteps (run fatalExits running updateErr ev).1 = [] ∧
        (run fatalExits running updateErr ev).2 = RunOutcome.processExited)) := by
  constructor
  · intro hnil
    unfold run
    simp only [hnil]
    cases running <;> cases updateErr <;>
      simp [shutdownSteps, shutdownSequence, fatalTaken]
  · intro e he
    subst he
    unfold run
    simp only [sentOnErrch]
    cases running <;> cases updateErr <;> cases fatalExits <;>
      simp [shutdownSteps, shutdownSequence, fatalTaken, beforeShutdown, List.takeWhile]

/-- C5 at a termination signal and at a serving error, with the proxy engine
flagged as running. -/
theorem run_shutdown_examples :
    (shutdownSteps (run true true none FirstEvent.signal).1 = shutdownSequence ∧
      fatalTaken (run true true none FirstEvent.signal).1 = false) ∧
    fatalTaken (beforeShutdown (run true true none (FirstEvent.servingError "bind")).1) = true :=
  have h := run_shutdown true true none FirstEvent.signal
  have g := run_shutdown true true none (FirstEvent.servingError "bind")
  ⟨⟨(h.1 rfl).1, (h.1 rfl).2.1⟩, (g.2 "bind" rfl).1⟩

end Lifecycle

/-- C5: when the serving subsystem yields a non-nil error the shutdown
sequence does not run: the fatal log ends the process first; and were
`log.Fatal` to return, the fatal log would still come before the shutdown
steps, not after them. -/
theorem run_fatal_skips_shutdown :
    (run true false none (FirstEvent.servingError "listen tcp :2017: bind")).1 =
      [RunEvent.logFatal "run: listen tcp :2017: bind"] ∧
    shutdownSteps (run true false none (FirstEvent.servingError "listen tcp :2017: bind")).1 ≠
      shutdownSequence ∧
    (run true false none (FirstEvent.servingError "listen tcp :2017: bind")).2 =
      RunOutcome.processExited ∧
    (run false false none (FirstEvent.servingError "listen tcp :2017: bind")).1.head? =
      some (RunEvent.logFatal "run: listen tcp :2017: bind") := by
  decide

section RefreshRound

theorem countP_set_of_getElem? {α : Type} (p : α → Bool) :
    ∀ (l : List α) (i : Nat) (x a : α), l[i]? = some x →
      (l.set i a).countP p + (if p x = true then 1 else 0) =
        l.countP p + (if p a = true then 1 else 0) := by
  intro l
  induction l with
  | nil => intro i x a h; simp at h
  | cons y ys ih =>
    intro i x a h
    cases i with
    | zero =>
      simp only [List.getElem?_cons_zero, Option.some.injEq] at h
      subst h
      simp only [List.set_cons_zero, List.countP_cons]
      omega
    | succ n =>
      simp only [List.getElem?_cons_succ] at h
      have := ih n x a h
      simp only [List.set_cons_succ, List.countP_cons]
      omega

theorem lt_length_of_getElem? {α : Type} (l : List α) (i : Nat) (x : α) (h : l[i]? = some x) :
    i < l.length := by
  rcases List.getElem?_eq_some.mp h with ⟨hi, _⟩
  exact hi

theorem countP_pos_of_getElem? {α : Type} (p : α → Bool) (l : List α) (i : Nat) (x : α)
    (h : l[i]? = some x) (hp : p x = true) : 0 < l.countP p := by
  rcases List.getElem?_eq_some.mp h with ⟨hi, hx⟩
  exact List.countP_pos_iff.mpr ⟨x, hx ▸ List.getElem_mem hi, hp⟩

theorem gateInvariant_init (lenSubs : Nat) : gateInvariant (initRound lenSubs) := by
  unfold gateInvariant initRound slotHolders controlCapacity
  simp [List.countP_replicate, holdsSlot]

theorem gateInvariant_step (s s1 : RoundState) (a : Action) (hinv : gateInvariant s)
    (hstep : step s a = some s1) : gateInvariant s1 := by
  unfold gateInvariant slotHolders at hinv ⊢
  obtain ⟨hc, hcap⟩ := hinv
  cases a with
  | acquire i =>
    simp only [step] at hstep
    split_ifs at hstep with hg
    obtain ⟨hpc, hlt⟩ := hg
    have hcount := countP_set_of_getElem? holdsSlot s.workers i WorkerPc.waiting
      WorkerPc.calling hpc
    simp only [holdsSlot, Bool.false_eq_true, if_false, if_true] at hcount
    cases hstep
    simp only
    constructor <;> omega
  | callReturns i ok =>
    simp only [step] at hstep
    split_ifs at hstep with hpc
    have hcount := countP_set_of_getElem? holdsSlot s.workers i WorkerPc.calling
      (WorkerPc.returned ok) hpc
    simp only [holdsSlot, if_true] at hcount
    cases hstep
    simp only
    constructor <;> omega
  | logOutcome i =>
    simp only [step] at hstep
    split at hstep
    · rename_i ok hpc
      have hcount := countP_set_of_getElem? holdsSlot s.workers i (WorkerPc.returned ok)
        WorkerPc.logged hpc
      simp only [holdsSlot, if_true] at hcount
      cases hstep
      simp only
      constructor <;> omega
    · cases hstep
  | wgDone i =>
    simp only [step] at hstep
    split_ifs at hstep with hpc
    have hcount := countP_set_of_getElem? holdsSlot s.workers i WorkerPc.logged
      WorkerPc.signalled hpc
    simp only [holdsSlot, if_true] at hcount
    cases hstep
    simp only
    constructor <;> omega
  | release i =>
    simp only [step] at hstep
    split_ifs at hstep with hg
    obtain ⟨hpc, hpos⟩ := hg
    have hcount := countP_set_of_getElem? holdsSlot s.workers i WorkerPc.signalled
      WorkerPc.finished hpc
    simp only [holdsSlot, Bool.false_eq_true, if_false, if_true] at hcount
    cases hstep
    simp only
    constructor <;> omega

theorem gateInvariant_runActions (schedule : List Action) :
    ∀ s s1 : RoundState, gateInvariant s → runActions s schedule = some s1 →
      gateInvariant s1 := by
  induction schedule with
  | nil =>
    intro s s1 hinv hrun
    simp only [runActions, Option.some.injEq] at hrun
    exact hrun ▸ hinv
  | cons a rest ih =>
    intro s s1 hinv hrun
    rw [runActions] at hrun
    cases hs : step s a with
    | none => rw [hs] at hrun; cases hrun
    | some s2 =>
      rw [hs] at hrun
      exact ih s2 s1 (gateInvariant_step s s2 a hinv hs) hrun

theorem inCall_le_slotHolders (s : RoundState) : inCall s ≤ slotHolders s := by
  unfold inCall slotHolders
  apply List.countP_mono_left
  intro x _ hx
  have : x = WorkerPc.calling := by simpa using hx
  subst this
  rfl

theorem finishCall_runs (s : RoundState) (i : Nat) (ok : Bool)
    (hpc : s.workers[i]? = some WorkerPc.calling) (hpos : 0 < s.control) :
    runActions s (finishCall i ok) =
      some { workers := s.workers.set i WorkerPc.finished
             control := s.control - 1
             wg := s.wg - 1
             log := s.log ++ [(i, ok)] } := by
  have hi : i < s.workers.length := lt_length_of_getElem? _ _ _ hpc
  simp [finishCall, runActions, step, hpc, hi, hpos, List.getElem?_set_self, List.set_set]

/-- C6: in every state reached from the start of a refresh round over any
number of subscriptions, by any schedule and with any outcomes of the refresh
calls, at most 2 workers are inside the refresh call: the buffer of `control`
counts exactly the workers between their send and their receive and never
exceeds its capacity of 2; and every worker inside the call can run to its
end whether the call succeeds or fails, logging that outcome and giving its
slot back. -/
theorem updateSubscriptions_gate_bound (lenSubs : Nat) (schedule : List Action)
    (s : RoundState) (hrun : runActions (initRound lenSubs) schedule = some s) :
    inCall s ≤ 2 ∧ s.control ≤ 2 ∧ s.control = slotHolders s ∧
    ∀ (i : Nat) (ok : Bool), s.workers[i]? = some WorkerPc.calling →
      ∃ s1 : RoundState, runActions s (finishCall i ok) = some s1 ∧
        s1.workers[i]? = some WorkerPc.finished ∧ s1.control + 1 = s.control ∧
        s1.log = s.log ++ [(i, ok)] := by
  have hinv := gateInvariant_runActions schedule (initRound lenSubs) s
    (gateInvariant_init lenSubs) hrun
  obtain ⟨hc, hcap⟩ := hinv
  have hle := inCall_le_slotHolders s
  unfold controlCapacity at hcap
  refine ⟨by omega, hcap, hc, ?_⟩
  intro i ok hpc
  have hpos : 0 < s.control := by
    rw [hc]
    exact countP_pos_of_getElem? holdsSlot s.workers i WorkerPc.calling hpc rfl
  refine ⟨_, finishCall_runs s i ok hpc hpos, ?_, ?_, rfl⟩
  · exact List.getElem?_set_self (lt_length_of_getElem? _ _ _ hpc)
  · simp only
    omega

/-- C6 on a round of three subscriptions after two workers have entered the
call: the gate is full, the third worker cannot enter, and a failed call
still ends with the slot given back. -/
theorem updateSubscriptions_three_workers :
    runActions (initRound 3) twoEnterSchedule = some gateFullState ∧
    inCall gateFullState ≤ 2 ∧
    step gateFullState (Action.acquire 1) = none ∧
    ∃ s1 : RoundState, runActions gateFullState (finishCall 0 false) = some s1 ∧
      s1.workers[0]? = some WorkerPc.finished ∧ s1.control + 1 = gateFullState.control ∧
      s1.log = gateFullState.log ++ [(0, false)] :=
  have h := updateSubscriptions_gate_bound 3 twoEnterSchedule gateFullState (by decide)
  ⟨by decide, h.1, by decide, h.2.2.2 0 false (by decide)⟩

end RefreshRound

end V2RayA
